import Mathlib

set_option maxRecDepth 100000

/-!
Verification of the RIFTLang linkable-then-fileformat polyglot codec
(`src/rift_codec.h`, `src/rift_codec.c`) as a shallow embedding.

Strings are modelled as `List Char` (`Str`); a source text is split into
lines exactly as the C line loop does.  Buffer-size truncations
(`RIFT_CIR_MAX_STR`, the 4096-byte line buffer, the 32-byte small fields)
are modelled with `List.take`.  `line_num` is a `uint32_t` in C; it is
modelled as `Nat` (sources of 2^32 or more lines, where the counter would
wrap, are not modelled).  `atoi`/`strtol` are modelled with mathematical
integers; their C `int`/`long` overflow is undefined behaviour and is not
modelled.
-/

abbrev Str := List Char

/-- Character list of a string literal. -/
def cs (s : String) : Str := s.data

/-- C `isspace` on the ASCII execution character set. -/
def cIsSpace (c : Char) : Bool :=
  c = ' ' || c = '\t' || c = '\n' || c = '\x0b' || c = '\x0c' || c = '\x0d'

/-- `cir_trim_left`: skip leading `isspace` characters. -/
def cir_trim_left : Str → Str
  | [] => []
  | c :: s => if cIsSpace c then cir_trim_left s else c :: s

/-- `cir_trim_right`: drop trailing `isspace` characters. -/
def cir_trim_right (s : Str) : Str :=
  (cir_trim_left s.reverse).reverse

/-- `cir_starts_with(s, prefix)`. -/
def cir_starts_with (s pfx : Str) : Bool :=
  pfx.isPrefixOf s

/-- `cir_safe_copy` into a buffer of `sz` bytes: keeps at most `sz - 1`
characters (the last byte is the NUL terminator). -/
def cir_safe_copy (sz : Nat) (src : Str) : Str :=
  src.take (sz - 1)

/-- `cir_var_seen`: is `name` among the recorded variable names? -/
def cir_var_seen (vars : List Str) (name : Str) : Bool :=
  vars.contains name

/-- Index of the first occurrence of `c` (C `strchr`), if any. -/
def strIndexOf : Str → Char → Option Nat
  | [], _ => none
  | a :: t, c => if a = c then some 0 else (strIndexOf t c).map (· + 1)

/-- Index of the last occurrence of `c` (C `strrchr`), if any. -/
def strLastIndexOf (s : Str) (c : Char) : Option Nat :=
  (strIndexOf s.reverse c).map (fun k => s.length - 1 - k)

/-- Index of the first occurrence of substring `pat` (C `strstr`), if any. -/
def strstrIdx (pat : Str) : Str → Option Nat
  | [] => if pat.isPrefixOf ([] : Str) then some 0 else none
  | a :: t =>
    if pat.isPrefixOf (a :: t) then some 0 else (strstrIdx pat t).map (· + 1)

/-- Truncate `s` at the first occurrence of `c` (writing `'\0'` there). -/
def truncAtChar (s : Str) (c : Char) : Str :=
  match strIndexOf s c with
  | some i => s.take i
  | none => s

/-- Truncate `s` at the first occurrence of substring `pat`. -/
def truncAtSub (s : Str) (pat : Str) : Str :=
  match strstrIdx pat s with
  | some i => s.take i
  | none => s

/-- `cir_extract_parens`: content between the first `'('` and the last
`')'` of the line, with the fallback copies of the C code. -/
def cir_extract_parens (line : Str) (sz : Nat) : Str :=
  match strIndexOf line '(' with
  | none => cir_safe_copy sz line
  | some i =>
    match strLastIndexOf line ')' with
    | none => cir_safe_copy sz (line.drop (i + 1))
    | some j =>
      if j ≤ i + 1 then cir_safe_copy sz (line.drop (i + 1))
      else (line.drop (i + 1)).take (min (j - (i + 1)) (sz - 1))

/-- `cir_extract_span_kind`: content between `'<'` and the next `'>'`,
defaulting to `"fixed"`. -/
def cir_extract_span_kind (line : Str) (sz : Nat) : Str :=
  match strIndexOf line '<' with
  | none => cir_safe_copy sz (cs "fixed")
  | some i =>
    let rest := line.drop (i + 1)
    match strIndexOf rest '>' with
    | none => cir_safe_copy sz (cs "fixed")
    | some j => rest.take (min j (sz - 1))

/-- `cir_strip_comment_prefix` (named `cir_strip_comment_pfx` here): drop a
leading `//` or `/* ... */`, then trim both ends into a `sz`-byte buffer. -/
def cir_strip_comment_pfx (line : Str) (sz : Nat) : Str :=
  let s :=
    if cir_starts_with line (cs "//") then line.drop 2
    else if cir_starts_with line (cs "/*") then
      let s2 := line.drop 2
      match strstrIdx (cs "*/") s2 with
      | some k => s2.drop (k + 2)
      | none => s2
    else line
  cir_trim_right (cir_safe_copy sz (cir_trim_left s))

/-- Accumulate a decimal digit run (helper for `atoi`/`strtol`). -/
def digitRunAux : Str → Nat → Bool → Nat × Str × Bool
  | [], acc, got => (acc, [], got)
  | c :: t, acc, got =>
    if c.isDigit then digitRunAux t (acc * 10 + (c.toNat - 48)) true
    else (acc, c :: t, got)

/-- C `atoi`: skip whitespace, optional sign, then digits. -/
def cAtoi (s : Str) : Int :=
  let t := cir_trim_left s
  match t with
  | '-' :: r => -(((digitRunAux r 0 false).1 : Int))
  | '+' :: r => ((digitRunAux r 0 false).1 : Int)
  | _ => ((digitRunAux t 0 false).1 : Int)

/-- C `strtol(s, &endp, 10)`: the parsed value and the `endp` suffix.  When
no digit is consumed, `endp` is the original pointer `s`. -/
def strtol10 (s : Str) : Int × Str :=
  let t := cir_trim_left s
  let signed : Int × Str :=
    match t with
    | '-' :: r => (-1, r)
    | '+' :: r => (1, r)
    | _ => (1, t)
  let (n, rest, got) := digitRunAux signed.2 0 false
  if got then (signed.1 * n, rest) else (0, s)

/- ==========================================================================
   Data model (`rift_codec.h`)
   ========================================================================== -/

def RIFT_CIR_MAX_STR : Nat := 256
def RIFT_CIR_MAX_NODES : Nat := 1024
def RIFT_CIR_MAX_VARS : Nat := 64

inductive RiftExecutionMode
  | classical
  | quantum
  | hybrid
deriving DecidableEq, Repr

inductive RiftTargetLanguage
  | c
  | js
  | go
  | lua
  | python
  | wat
deriving DecidableEq, Repr

inductive RiftCIRKind
  | govern
  | span
  | typeDef
  | typeField
  | assign
  | policy
  | whileNode
  | ifNode
  | blockClose
  | validateNode
  | comment
  | unknown
deriving DecidableEq, Repr

/-- `RiftCIRNode`: the C struct with all fields present; a fresh node is
`memset` to zero, i.e. every default below. -/
structure RiftCIRNode where
  kind : RiftCIRKind := .govern
  source_line : Nat := 0
  mode : Str := []
  span_kind : Str := []
  span_bytes : Int := 0
  type_name : Str := []
  field_name : Str := []
  field_type : Str := []
  is_last_field : Bool := false
  var_name : Str := []
  expr : Str := []
  is_first_use : Bool := false
  condition : Str := []
  validate_arg : Str := []
  policy_name : Str := []
  text : Str := []
deriving DecidableEq, Repr

/-- `RiftCIRProgram`: the fixed `nodes[RIFT_CIR_MAX_NODES]` array with its
`count` is modelled as a list of at most `RIFT_CIR_MAX_NODES` nodes. -/
structure RiftCIRProgram where
  nodes : List RiftCIRNode := []
  mode : RiftExecutionMode := .classical
  consensus_ok : Bool := false
  error_msg : Str := []
deriving DecidableEq, Repr

/-- The `COMMIT` macro: append the node only while `count` is below
`RIFT_CIR_MAX_NODES`; otherwise leave everything unchanged. -/
def cirCommit (nodes : List RiftCIRNode) (n : RiftCIRNode) : List RiftCIRNode :=
  if nodes.length < RIFT_CIR_MAX_NODES then nodes ++ [n] else nodes

/- ==========================================================================
   Phase 1 — Linker (`rift_link`)
   ========================================================================== -/

/-- The local state of `rift_link`'s line loop. -/
structure LinkSt where
  prog : RiftCIRProgram
  seen_span : Bool := false
  in_span_block : Bool := false
  in_type_block : Bool := false
  in_policy_block : Bool := false
  block_depth : Nat := 0
  line_num : Nat := 0
  pending : RiftCIRNode := {}
  pending_field_count : Nat := 0
  declared_vars : List Str := []
deriving DecidableEq, Repr

/-- The line buffer preparation: copy at most 4095 bytes, right-trim the
buffer, then left-trim (`trimmed` points into the buffer). -/
def linkTrim (raw : Str) : Str :=
  cir_trim_left (cir_trim_right (raw.take 4095))

/-- Mark the most recent `CIR_TYPE_FIELD` as last: the C walks backward
from the end, setting `is_last_field` on the first `CIR_TYPE_FIELD` it
meets, stopping at a `CIR_TYPE_DEF`.  Modelled on the reversed list. -/
def markLastAux : List RiftCIRNode → List RiftCIRNode
  | [] => []
  | n :: ns =>
    if n.kind = .typeField then { n with is_last_field := true } :: ns
    else if n.kind = .typeDef then n :: ns
    else n :: markLastAux ns

def markLastField (ns : List RiftCIRNode) : List RiftCIRNode :=
  (markLastAux ns.reverse).reverse

/-- Lines consumed while `in_span_block`. -/
def spanBlockStep (st : LinkSt) (trimmed : Str) : LinkSt :=
  let pending :=
    if cir_starts_with trimmed (cs "bytes:") then
      { st.pending with span_bytes := cAtoi (cir_trim_left (trimmed.drop 6)) }
    else st.pending
  if trimmed.contains '}' then
    let pending := { pending with source_line := st.line_num }
    { st with
      prog := { st.prog with nodes := cirCommit st.prog.nodes pending }
      seen_span := true
      in_span_block := false
      pending := {} }
  else { st with pending := pending }

/-- Lines consumed while `in_type_block`. -/
def typeBlockStep (st : LinkSt) (trimmed : Str) : LinkSt :=
  if trimmed.contains '}' then
    let nodes :=
      if 0 < st.prog.nodes.length ∧ 0 < st.pending_field_count then
        markLastField st.prog.nodes
      else st.prog.nodes
    { st with
      prog := { st.prog with nodes := nodes }
      in_type_block := false
      pending_field_count := 0
      pending := {} }
  else
    match strIndexOf trimmed ':' with
    | some ci =>
      let fname := cir_trim_right (trimmed.take (min ci (RIFT_CIR_MAX_STR - 1)))
      let ftbuf := cir_trim_right (cir_safe_copy 32 (cir_trim_left (trimmed.drop (ci + 1))))
      let ftbuf :=
        if ftbuf ≠ [] ∧ ftbuf.getLast! = ',' then ftbuf.dropLast else ftbuf
      let field : RiftCIRNode :=
        { kind := .typeField
          source_line := st.line_num
          field_name := cir_safe_copy RIFT_CIR_MAX_STR fname
          field_type := cir_safe_copy 32 ftbuf }
      { st with
        prog := { st.prog with nodes := cirCommit st.prog.nodes field }
        pending_field_count := st.pending_field_count + 1 }
    | none => st

/-- Lines consumed while `in_policy_block`: body discarded. -/
def policyBlockStep (st : LinkSt) (trimmed : Str) : LinkSt :=
  if trimmed.contains '}' then { st with in_policy_block := false } else st

/- Normal-state classification conditions, in the order the C tests them. -/

def condComment (t : Str) : Bool :=
  cir_starts_with t (cs "//") || cir_starts_with t (cs "/*")

def condGovern (t : Str) : Bool :=
  cir_starts_with t (cs "!govern")

def condSpanOpen (t : Str) : Bool :=
  cir_starts_with t (cs "align span<")

def condTypeOpen (t : Str) : Bool :=
  cir_starts_with t (cs "type ") && t.contains '='

def condPolicyOpen (t : Str) : Bool :=
  cir_starts_with t (cs "policy_fn on")

def condWhile (t : Str) : Bool :=
  cir_starts_with t (cs "while ") || cir_starts_with t (cs "while(")

def condIf (t : Str) : Bool :=
  cir_starts_with t (cs "if ") || cir_starts_with t (cs "if(")

def condBlockClose (t : Str) : Bool :=
  t = cs "\x7d"

def condValidate (t : Str) : Bool :=
  cir_starts_with t (cs "validate(")

def condAssign (t : Str) : Bool :=
  (strstrIdx (cs ":=") t).isSome

def condLoneOpen (t : Str) : Bool :=
  t = cs "\x7b"

/-- The consensus-violation message for a `type` line.  The C writes it
with `snprintf` into the 256-byte `error_msg` buffer; the format output
is at most 73 bytes for a 32-bit line number, so the `snprintf`
truncation never fires and is not modelled. -/
def typeErrMsg (n : Nat) : Str :=
  cs "line " ++ cs (toString n) ++
    cs ": type declaration before span (violates memory-first ordering)"

/-- The consensus-violation message for an assignment line. -/
def assignErrMsg (n : Nat) : Str :=
  cs "line " ++ cs (toString n) ++
    cs ": assignment before span declaration (violates memory-first ordering)"

/-- The `!govern` mode word: 32-byte buffer, truncated at the first space
and the first `'/'`, right-trimmed. -/
def governModeBuf (trimmed : Str) : Str :=
  cir_trim_right (truncAtChar (truncAtChar
    (cir_safe_copy 32 (cir_trim_left (trimmed.drop 7))) ' ') '/')

/-- The assignment expression: text right of the first `":="`, left-trimmed
into a 256-byte buffer, with trailing `/*` and `//` comments stripped. -/
def assignExprBuf (trimmed : Str) (i : Nat) : Str :=
  let ebuf := cir_safe_copy RIFT_CIR_MAX_STR (cir_trim_left (trimmed.drop (i + 2)))
  let ebuf :=
    match strstrIdx (cs "/*") ebuf with
    | some k => cir_trim_right (ebuf.take k)
    | none => ebuf
  match strstrIdx (cs "//") ebuf with
  | some k => cir_trim_right (ebuf.take k)
  | none => ebuf

/-- The committed `CIR_COMMENT` arm. -/
def normalComment (st : LinkSt) (t : Str) : LinkSt :=
  let node : RiftCIRNode :=
    { kind := .comment, source_line := st.line_num
      text := cir_strip_comment_pfx t RIFT_CIR_MAX_STR }
  { st with prog := { st.prog with nodes := cirCommit st.prog.nodes node } }

/-- The `!govern` arm: commit a `CIR_GOVERN` node and update the program
mode. -/
def normalGovern (st : LinkSt) (t : Str) : LinkSt :=
  let mbuf := governModeBuf t
  let newMode : RiftExecutionMode :=
    if mbuf = cs "quantum" then .quantum
    else if mbuf = cs "hybrid" then .hybrid
    else .classical
  let node : RiftCIRNode :=
    { kind := .govern, source_line := st.line_num
      mode := cir_safe_copy 32 mbuf }
  { st with prog :=
    { st.prog with nodes := cirCommit st.prog.nodes node, mode := newMode } }

/-- The `align span<` arm: start accumulating the pending span node. -/
def normalSpanOpen (st : LinkSt) (t : Str) : LinkSt :=
  { st with
    pending :=
      { kind := .span
        span_kind := cir_extract_span_kind t 32
        span_bytes := 4096 }
    in_span_block := true }

/-- The `type ... =` arm: consensus check, then commit `CIR_TYPE_DEF` and
enter the type block (unless it closes on the same line). -/
def normalTypeOpen (st : LinkSt) (t : Str) : Except RiftCIRProgram LinkSt :=
  if st.seen_span = false then
    .error { st.prog with error_msg := typeErrMsg st.line_num }
  else
    let tbuf := cir_trim_right ((truncAtChar (t.drop 5) '=').take (RIFT_CIR_MAX_STR - 1))
    let node : RiftCIRNode :=
      { kind := .typeDef, source_line := st.line_num
        type_name := cir_safe_copy RIFT_CIR_MAX_STR tbuf }
    .ok { st with
      prog := { st.prog with nodes := cirCommit st.prog.nodes node }
      in_type_block := ¬ t.contains '}'
      pending_field_count := 0 }

/-- The `policy_fn on` arm. -/
def normalPolicyOpen (st : LinkSt) (t : Str) : LinkSt :=
  let pbuf := cir_trim_right (truncAtChar
    (cir_safe_copy RIFT_CIR_MAX_STR (cir_trim_left (t.drop 12))) '{')
  let node : RiftCIRNode :=
    { kind := .policy, source_line := st.line_num
      policy_name := cir_safe_copy RIFT_CIR_MAX_STR pbuf }
  { st with
    prog := { st.prog with nodes := cirCommit st.prog.nodes node }
    in_policy_block := ¬ t.contains '}' }

/-- The `while` arm: commit `CIR_WHILE` and absorb the opening brace. -/
def normalWhile (st : LinkSt) (t : Str) : LinkSt :=
  let node : RiftCIRNode :=
    { kind := .whileNode, source_line := st.line_num
      condition := cir_extract_parens t RIFT_CIR_MAX_STR }
  { st with
    prog := { st.prog with nodes := cirCommit st.prog.nodes node }
    block_depth := st.block_depth + 1 }

/-- The `if` arm. -/
def normalIf (st : LinkSt) (t : Str) : LinkSt :=
  let node : RiftCIRNode :=
    { kind := .ifNode, source_line := st.line_num
      condition := cir_extract_parens t RIFT_CIR_MAX_STR }
  { st with
    prog := { st.prog with nodes := cirCommit st.prog.nodes node }
    block_depth := st.block_depth + 1 }

/-- The standalone `\x7d` arm: commit `CIR_BLOCK_CLOSE` only at positive
depth; a stray closer is ignored. -/
def normalClose (st : LinkSt) : LinkSt :=
  if 0 < st.block_depth then
    let node : RiftCIRNode := { kind := .blockClose, source_line := st.line_num }
    { st with
      prog := { st.prog with nodes := cirCommit st.prog.nodes node }
      block_depth := st.block_depth - 1 }
  else st

/-- The `validate(` arm. -/
def normalValidate (st : LinkSt) (t : Str) : LinkSt :=
  let arg := cir_extract_parens t RIFT_CIR_MAX_STR
  let arg := if arg ≠ [] ∧ arg.getLast! = ')' then arg.dropLast else arg
  let node : RiftCIRNode :=
    { kind := .validateNode, source_line := st.line_num, validate_arg := arg }
  { st with prog := { st.prog with nodes := cirCommit st.prog.nodes node } }

/-- The `:=` arm: consensus check, variable and expression extraction,
first-use bookkeeping, commit `CIR_ASSIGN`. -/
def normalAssign (st : LinkSt) (t : Str) : Except RiftCIRProgram LinkSt :=
  if st.seen_span = false then
    .error { st.prog with error_msg := assignErrMsg st.line_num }
  else
    let i := ((strstrIdx (cs ":=") t).getD 0)
    let vbuf := cir_trim_right (t.take (min i (RIFT_CIR_MAX_STR - 1)))
    let vname := cir_safe_copy RIFT_CIR_MAX_STR vbuf
    let firstUse := !(cir_var_seen st.declared_vars vname)
    let node : RiftCIRNode :=
      { kind := .assign, source_line := st.line_num
        var_name := vname
        expr := cir_safe_copy RIFT_CIR_MAX_STR (assignExprBuf t i)
        is_first_use := firstUse }
    let vars :=
      if firstUse = true ∧ st.declared_vars.length < RIFT_CIR_MAX_VARS then
        st.declared_vars ++ [cir_safe_copy RIFT_CIR_MAX_STR vname]
      else st.declared_vars
    .ok { st with
      prog := { st.prog with nodes := cirCommit st.prog.nodes node }
      declared_vars := vars }

/-- The fallback `CIR_UNKNOWN` arm. -/
def normalUnknown (st : LinkSt) (t : Str) : LinkSt :=
  let node : RiftCIRNode :=
    { kind := .unknown, source_line := st.line_num
      text := cir_safe_copy RIFT_CIR_MAX_STR t }
  { st with prog := { st.prog with nodes := cirCommit st.prog.nodes node } }

/-- Which arm of the normal-state classification chain a trimmed line
takes: first match wins, in the order the C tests the conditions. -/
inductive NormalClass
  | comment
  | govern
  | spanOpen
  | typeOpen
  | policyOpen
  | whileOpen
  | ifOpen
  | close
  | validate
  | assign
  | loneOpen
  | unknown
deriving DecidableEq, Repr

def classifyNormal (t : Str) : NormalClass :=
  if condComment t then .comment
  else if condGovern t then .govern
  else if condSpanOpen t then .spanOpen
  else if condTypeOpen t then .typeOpen
  else if condPolicyOpen t then .policyOpen
  else if condWhile t then .whileOpen
  else if condIf t then .ifOpen
  else if condBlockClose t then .close
  else if condValidate t then .validate
  else if condAssign t then .assign
  else if condLoneOpen t then .loneOpen
  else .unknown

/-- Normal-state line classification of `rift_link`, first match wins.
`st.line_num` has already been advanced to the current line's number. -/
def normalStep (st : LinkSt) (t : Str) : Except RiftCIRProgram LinkSt :=
  match classifyNormal t with
  | .comment => .ok (normalComment st t)
  | .govern => .ok (normalGovern st t)
  | .spanOpen => .ok (normalSpanOpen st t)
  | .typeOpen => normalTypeOpen st t
  | .policyOpen => .ok (normalPolicyOpen st t)
  | .whileOpen => .ok (normalWhile st t)
  | .ifOpen => .ok (normalIf st t)
  | .close => .ok (normalClose st)
  | .validate => .ok (normalValidate st t)
  | .assign => normalAssign st t
  | .loneOpen => .ok { st with block_depth := st.block_depth + 1 }
  | .unknown => .ok (normalUnknown st t)

/-- One iteration of `rift_link`'s line loop on the trimmed line;
`st.line_num` has already been advanced. -/
def stepTrimmed (st : LinkSt) (t : Str) : Except RiftCIRProgram LinkSt :=
  if t = [] then .ok st
  else if st.in_span_block then .ok (spanBlockStep st t)
  else if st.in_type_block then .ok (typeBlockStep st t)
  else if st.in_policy_block then .ok (policyBlockStep st t)
  else normalStep st t

/-- One iteration of `rift_link`'s line loop on the raw line. -/
def stepLine (st : LinkSt) (raw : Str) : Except RiftCIRProgram LinkSt :=
  stepTrimmed { st with line_num := st.line_num + 1 } (linkTrim raw)

/-- Run the line loop to the returned program: an early `.error` is the
consensus-failure return; falling off the end sets `consensus_ok := true`. -/
def runLines : LinkSt → List Str → RiftCIRProgram
  | st, [] => { st.prog with consensus_ok := true }
  | st, l :: ls =>
    match stepLine st l with
    | .error p => p
    | .ok st' => runLines st' ls

/-- The linker state before the first line. -/
def initSt (mode : RiftExecutionMode) : LinkSt :=
  { prog := { nodes := [], mode := mode, consensus_ok := false, error_msg := [] } }

def rift_link_lines (lines : List Str) (mode : RiftExecutionMode) : RiftCIRProgram :=
  runLines (initSt mode) lines

/-- Split a source text into the line segments the C loop visits: each
`'\n'` ends a line; a final segment without `'\n'` is a line; a trailing
`'\n'` does not open an empty last line. -/
def splitLinesGo (acc : Str) : Str → List Str
  | [] => [acc.reverse]
  | c :: t =>
    if c = '\n' then
      match t with
      | [] => [acc.reverse]
      | _ => acc.reverse :: splitLinesGo [] t
    else splitLinesGo (c :: acc) t

def splitLines : Str → List Str
  | [] => []
  | c :: t => splitLinesGo [] (c :: t)

/-- `rift_link`: Phase 1. -/
def rift_link (source : Str) (mode : RiftExecutionMode) : RiftCIRProgram :=
  rift_link_lines (splitLines source) mode

/-- `rift_link` on a Lean string literal. -/
def rift_link_str (source : String) (mode : RiftExecutionMode) : RiftCIRProgram :=
  rift_link source.data mode

/- ==========================================================================
   Phase 2 — Codec emission (`rift_codec_emit`)
   ========================================================================== -/

/-- `cir_go_type`: the Go field-type mapping table. -/
def cir_go_type (t : Str) : Str :=
  if t = cs "INT" then cs "int32"
  else if t = cs "FLOAT" then cs "float64"
  else if t = cs "STRING" then cs "string"
  else cs "interface\x7b\x7d"

/-- `cir_comment_prefix` (named `cir_comment_pfx` here). -/
def cir_comment_pfx (t : RiftTargetLanguage) : Str :=
  match t with
  | .js => cs "//"
  | .python => cs "#"
  | .go => cs "//"
  | .lua => cs "--"
  | .wat => cs ";;"
  | _ => cs "//"

/-- The mode string chosen by the emitter. -/
def modeStr (m : RiftExecutionMode) : Str :=
  match m with
  | .quantum => cs "quantum"
  | .hybrid => cs "hybrid"
  | .classical => cs "classical"

/-- `codec_emit_header`. -/
def codec_emit_header (target : RiftTargetLanguage) (mode_str : Str) : Str :=
  match target with
  | .js =>
    cs "'use strict';\n/* Generated by RIFTLang v1.0.0 - " ++ mode_str ++
      cs " mode */\nconst rift = require('./bindings/node-riftlang/rift_binding.cjs');\n\n"
  | .python =>
    cs "# -*- coding: utf-8 -*-\n# Generated by RIFTLang v1.0.0 - " ++ mode_str ++
      cs " mode\nimport sys, os\nsys.path.insert(0, os.path.join(os.path.dirname(os.path.abspath(__file__)),\n                'bindings', 'pyriftlang'))\nimport rift_binding as rift\n\n"
  | .go =>
    cs "// Generated by RIFTLang v1.0.0 - " ++ mode_str ++
      cs " mode\npackage main\n\nimport \"fmt\"\n\nfunc main() \x7b\n"
  | .lua =>
    cs "-- Generated by RIFTLang v1.0.0 - " ++ mode_str ++
      cs " mode\nlocal rift = dofile('bindings/lua-riftlang/rift_binding.lua')\n\n"
  | .wat =>
    cs ";; Generated by RIFTLang v1.0.0 - " ++ mode_str ++
      cs " mode\n(module\n  (import \"rift\" \"validate\" (func $rift_validate (param i32) (result i32)))\n  (memory (export \"memory\") 1)\n  (func $main (export \"main\")\n"
  | _ => []

/-- `codec_emit_footer`. -/
def codec_emit_footer (target : RiftTargetLanguage) : Str :=
  match target with
  | .go => cs "\t_ = fmt.Sprintf  // suppress unused import\n\x7d\n"
  | .wat => cs "  )\n)\n"
  | _ => []

/-- WAT pass 1: one `(local $name i32)` per first-use assign, in order. -/
def watPass1 : List RiftCIRNode → Str
  | [] => []
  | n :: ns =>
    (if n.kind = .assign ∧ n.is_first_use then
      cs "    (local $" ++ n.var_name ++ cs " i32)\n"
    else []) ++ watPass1 ns

/-- WAT pass 2 rendering of one node's switch case (the `depth` counter of
the C loop never influences the emitted text). -/
def watNodeText (n : RiftCIRNode) : Str :=
  match n.kind with
  | .govern => cs "    ;; RIFT: " ++ n.mode ++ cs " mode\n"
  | .span =>
    cs "    ;; rift: memory span (" ++ n.span_kind ++ cs ", " ++
      cs (toString n.span_bytes) ++ cs " bytes)\n"
  | .typeDef => cs "    ;; type: " ++ n.type_name ++ cs "\n"
  | .typeField => []
  | .assign =>
    let (val, endp) := strtol10 n.expr
    if endp = [] ∨ cIsSpace (endp.headD ' ') then
      cs "    (local.set $" ++ n.var_name ++ cs " (i32.const " ++
        cs (toString val) ++ cs "))\n"
    else
      cs "    ;; expr: " ++ n.var_name ++ cs " = " ++ n.expr ++ cs "\n" ++
        cs "    (local.set $" ++ n.var_name ++ cs " (i32.const 0))\n"
  | .policy => cs "    ;; policy: " ++ n.policy_name ++ cs "\n"
  | .whileNode => cs "    (block\n    (loop\n"
  | .ifNode => cs "    (if (then\n"
  | .blockClose => cs "    ))\n"
  | .validateNode => cs "    (call $rift_validate (local.get $" ++ n.validate_arg ++ cs "))\n"
  | .comment => if n.text ≠ [] then cs "    ;; " ++ n.text ++ cs "\n" else []
  | .unknown => if n.text ≠ [] then cs "    ;; " ++ n.text ++ cs "\n" else []

/-- WAT pass 2: walk the nodes with the (output-irrelevant) depth counter. -/
def watPass2 : Nat → List RiftCIRNode → Str
  | _, [] => []
  | depth, n :: ns =>
    let depth' :=
      match n.kind with
      | .whileNode => depth + 1
      | .ifNode => depth + 1
      | .blockClose => if 0 < depth then depth - 1 else depth
      | _ => depth
    watNodeText n ++ watPass2 depth' ns

/-- `codec_emit_wat`: header, pass 1, pass 2, footer. -/
def codec_emit_wat (prog : RiftCIRProgram) : Str :=
  codec_emit_header .wat (modeStr prog.mode) ++
    watPass1 prog.nodes ++ watPass2 0 prog.nodes ++ codec_emit_footer .wat

/-- Indentation string for body lines (64-byte buffer: Go tabs capped at
15, four-space blocks capped at 63 characters for the others). -/
def indentStr (target : RiftTargetLanguage) (depth : Nat) : Str :=
  if 0 < depth ∨ target = .go then
    if target = .go then List.replicate (min (depth + 1) 15) '\t'
    else List.replicate (min (depth * 4) 63) ' '
  else []

/-- `codec_emit_node`: one node's text for JS / Python / Go / Lua (and the
default target), together with the updated `indent_depth`. -/
def codec_emit_node (target : RiftTargetLanguage) (n : RiftCIRNode)
    (depth : Nat) : Str × Nat :=
  let cpfx := cir_comment_pfx target
  let ind := indentStr target depth
  match n.kind with
  | .govern => (ind ++ cpfx ++ cs " RIFT: " ++ n.mode ++ cs " mode\n", depth)
  | .span =>
    (ind ++ cpfx ++ cs " rift: memory span (" ++ n.span_kind ++ cs ", " ++
      cs (toString n.span_bytes) ++ cs " bytes)\n", depth)
  | .typeDef =>
    if target = .go then
      (ind ++ cs "type " ++ n.type_name ++ cs " struct \x7b\n", depth)
    else (ind ++ cpfx ++ cs " type: " ++ n.type_name ++ cs "\n", depth)
  | .typeField =>
    if target = .go then
      (ind ++ cs "\t" ++ n.field_name ++ cs " " ++ cir_go_type n.field_type ++ cs "\n" ++
        (if n.is_last_field then ind ++ cs "\x7d\n\n" else []), depth)
    else ([], depth)
  | .assign =>
    if target = .python ∨ target = .lua then
      if target = .lua ∧ n.is_first_use then
        (ind ++ cs "local " ++ n.var_name ++ cs " = " ++ n.expr ++ cs "\n", depth)
      else (ind ++ n.var_name ++ cs " = " ++ n.expr ++ cs "\n", depth)
    else if target = .js then
      if n.is_first_use then
        (ind ++ cs "let " ++ n.var_name ++ cs " = " ++ n.expr ++ cs ";\n", depth)
      else (ind ++ n.var_name ++ cs " = " ++ n.expr ++ cs ";\n", depth)
    else if target = .go then
      if n.is_first_use then
        (ind ++ n.var_name ++ cs " := " ++ n.expr ++ cs "\n", depth)
      else (ind ++ n.var_name ++ cs " = " ++ n.expr ++ cs "\n", depth)
    else ([], depth)
  | .policy => (ind ++ cpfx ++ cs " policy: " ++ n.policy_name ++ cs "\n", depth)
  | .whileNode =>
    (if target = .python then ind ++ cs "while " ++ n.condition ++ cs ":\n"
     else if target = .js then ind ++ cs "while (" ++ n.condition ++ cs ") \x7b\n"
     else if target = .go then ind ++ cs "for " ++ n.condition ++ cs " \x7b\n"
     else if target = .lua then ind ++ cs "while " ++ n.condition ++ cs " do\n"
     else [], depth + 1)
  | .ifNode =>
    (if target = .python then ind ++ cs "if " ++ n.condition ++ cs ":\n"
     else if target = .js then ind ++ cs "if (" ++ n.condition ++ cs ") \x7b\n"
     else if target = .go then ind ++ cs "if " ++ n.condition ++ cs " \x7b\n"
     else if target = .lua then ind ++ cs "if " ++ n.condition ++ cs " then\n"
     else [], depth + 1)
  | .blockClose =>
    let d := if 0 < depth then depth - 1 else depth
    let closeInd :=
      if target = .go then List.replicate (min (d + 1) 15) '\t'
      else if target = .python then []
      else List.replicate (min (d * 4) 63) ' '
    (if target = .python then []
     else if target = .js ∨ target = .go then closeInd ++ cs "\x7d\n"
     else if target = .lua then closeInd ++ cs "end\n"
     else [], d)
  | .validateNode =>
    if target = .python ∨ target = .lua then
      (ind ++ cs "rift.validate(" ++ n.validate_arg ++ cs ")\n", depth)
    else if target = .js then
      (ind ++ cs "rift.validate('" ++ n.validate_arg ++ cs "');\n", depth)
    else if target = .go then
      (ind ++ cs "fmt.Printf(\"rift.validate: %v\\n\", " ++ n.validate_arg ++ cs ")\n", depth)
    else ([], depth)
  | .comment =>
    (if n.text ≠ [] then ind ++ cpfx ++ cs " " ++ n.text ++ cs "\n" else [], depth)
  | .unknown =>
    (if n.text ≠ [] then ind ++ cpfx ++ cs " " ++ n.text ++ cs "\n" else [], depth)

/-- The per-node emission loop of `rift_codec_emit`. -/
def emitNodes (target : RiftTargetLanguage) : Nat → List RiftCIRNode → Str
  | _, [] => []
  | depth, n :: ns =>
    let (out, d') := codec_emit_node target n depth
    out ++ emitNodes target d' ns

/-- `rift_codec_emit`: the success flag and the bytes written to the
output sink (`(false, [])` = rejected before writing anything). -/
def rift_codec_emit (prog : RiftCIRProgram) (target : RiftTargetLanguage) :
    Bool × Str :=
  if prog.consensus_ok = false then (false, [])
  else if target = .wat then (true, codec_emit_wat prog)
  else
    (true,
      codec_emit_header target (modeStr prog.mode) ++
        emitNodes target 0 prog.nodes ++ codec_emit_footer target)

/-- Run a prefix of the line loop, keeping the state (or the early-return
program). -/
def runPrefix : LinkSt → List Str → Except RiftCIRProgram LinkSt
  | st, [] => .ok st
  | st, l :: ls =>
    match stepLine st l with
    | .error p => .error p
    | .ok st' => runPrefix st' ls

/-- Field bounds shared by every successful line-loop step: the line
number is advanced by the caller only, consensus flag and error message
are untouched, the node count grows by at most one and stays within
capacity, and the declared-variable list is extended by at most one name
at the end. -/
def StepBounds (st st' : LinkSt) : Prop :=
  st'.line_num = st.line_num ∧
  st'.prog.consensus_ok = st.prog.consensus_ok ∧
  st'.prog.error_msg = st.prog.error_msg ∧
  st.prog.nodes.length ≤ st'.prog.nodes.length ∧
  st'.prog.nodes.length ≤ st.prog.nodes.length + 1 ∧
  (st'.prog.nodes.length ≤ max st.prog.nodes.length RIFT_CIR_MAX_NODES) ∧
  (st'.declared_vars = st.declared_vars ∨
    ∃ v, st'.declared_vars = st.declared_vars ++ [v])

/-- The `declared_vars` list as it stands when the line loop terminates
(normally or by consensus early return). -/
def runVars : LinkSt → List Str → List Str
  | st, [] => st.declared_vars
  | st, l :: ls =>
    match stepLine st l with
    | .error _ => st.declared_vars
    | .ok st' => runVars st' ls

def rift_link_vars (lines : List Str) (mode : RiftExecutionMode) : List Str :=
  runVars (initSt mode) lines

/-- What one line contributes to the completeness accounting: skipped
blank, silently consumed block-interior line, a line that attempts exactly
one node commit, a line that only adjusts linker state (span opener, lone
open brace, stray closer at depth zero), or the consensus early return. -/
inductive LineClass
  | blank
  | interiorSilent
  | commitC
  | structural
  | aborted
deriving DecidableEq, Repr

/-- Classify what a line does, mirroring the branch structure of the line
loop on state `st` (before the line-number increment). -/
def classifyLine (st : LinkSt) (raw : Str) : LineClass :=
  let t := linkTrim raw
  if t = [] then .blank
  else if st.in_span_block then
    if t.contains '}' then .commitC else .interiorSilent
  else if st.in_type_block then
    if t.contains '}' then .interiorSilent
    else if (strIndexOf t ':').isSome then .commitC else .interiorSilent
  else if st.in_policy_block then .interiorSilent
  else
    match classifyNormal t with
    | .comment => .commitC
    | .govern => .commitC
    | .spanOpen => .structural
    | .typeOpen => if st.seen_span = false then .aborted else .commitC
    | .policyOpen => .commitC
    | .whileOpen => .commitC
    | .ifOpen => .commitC
    | .close => if 0 < st.block_depth then .commitC else .structural
    | .validate => .commitC
    | .assign => if st.seen_span = false then .aborted else .commitC
    | .loneOpen => .structural
    | .unknown => .commitC

/-- The classes of the lines the loop actually processes (the early
return stops the walk). -/
def runClasses : LinkSt → List Str → List LineClass
  | _, [] => []
  | st, l :: ls =>
    match stepLine st l with
    | .error _ => [classifyLine st l]
    | .ok st' => classifyLine st l :: runClasses st' ls

/-- Count of a class among the processed lines. -/
def countClass (cl : List LineClass) (c : LineClass) : Nat :=
  cl.count c

/-- One WAT pass-1 local declaration, as an option (for the filterMap
formulation of the two-pass structure). -/
def watDecl (n : RiftCIRNode) : Option Str :=
  if n.kind = .assign ∧ n.is_first_use then
    some (cs "    (local $" ++ n.var_name ++ cs " i32)
")
  else none

/-- Modelled from the claim's words, C8: an expression "parses as an
integer literal" when the whole string is an optionally signed nonempty
digit string. -/
def specIntLiteral (s : Str) : Bool :=
  let digits :=
    match s with
    | '-' :: r => r
    | '+' :: r => r
    | _ => s
  digits ≠ [] && digits.all (·.isDigit)

/-- The value of such a literal. -/
def specIntVal (s : Str) : Int :=
  match s with
  | '-' :: r => -((digitRunAux r 0 false).1 : Int)
  | '+' :: r => ((digitRunAux r 0 false).1 : Int)
  | _ => ((digitRunAux s 0 false).1 : Int)

/-- Modelled from the claim's words, C8: the body rendering the claim
asserts — a `local.set` of the constant for integer-literal expressions,
and a comment plus `local.set` of 0 for every other expression; all other
node kinds as the code renders them. -/
def watNodeTextSpec (n : RiftCIRNode) : Str :=
  if n.kind = .assign then
    if specIntLiteral n.expr then
      cs "    (local.set $" ++ n.var_name ++ cs " (i32.const " ++
        cs (toString (specIntVal n.expr)) ++ cs "))
"
    else
      cs "    ;; expr: " ++ n.var_name ++ cs " = " ++ n.expr ++ cs "
" ++
        cs "    (local.set $" ++ n.var_name ++ cs " (i32.const 0))
"
  else watNodeText n

/-- The claim C8's predicted WAT output: header, the pass-1 declarations,
the claim's body rendering, footer. -/
def watEmitSpec (prog : RiftCIRProgram) : Str :=
  codec_emit_header .wat (modeStr prog.mode) ++
    (prog.nodes.filterMap watDecl).flatten ++
    (prog.nodes.map watNodeTextSpec).flatten ++ codec_emit_footer .wat

/-- The Scenario D single `while` line after a valid (multi-line) span
block. -/
def src7 : String := "align span<fixed> \x7b\nbytes: 4096\n\x7d\nwhile (x > 0) \x7b x := x - 1 \x7d"

/-- A linkable source whose assignment expression `5 x` is not an integer
literal but begins with one. -/
def srcC8 : String := "align span<f> \x7b\n\x7d\nx := 5 x"

/-- Sixty-four distinct one-character variable names. -/
def varNames64 : List Str :=
  (cs "abcdefghijklmnopqrstuvwxyzABCDEFGHIJKLMNOPQRSTUVWXYZ0123456789_$").map
    (fun c => [c])

/-- A source assigning 64 distinct names and then a 65th name twice. -/
def src5 : List Str :=
  [cs "align span<f> \x7b", cs "\x7d"] ++
    varNames64.map (fun v => v ++ cs " := 1") ++ [cs "zz := 1", cs "zz := 2"]

/-- A small source with one span block and two assignments to `x`. -/
def src5w : List Str :=
  [cs "align span<f> \x7b", cs "\x7d", cs "x := 1", cs "x := 2"]

/-- The first-use-uniqueness property of claim C5 for one variable name:
at most one committed Assign node for the name carries
`is_first_use = true`, and such a node's source line is minimal among the
committed Assign nodes for the name. -/
def firstUseFor (name : Str) (n : RiftCIRNode) : Bool :=
  (n.kind == RiftCIRKind.assign) && (n.var_name == name) && n.is_first_use

def C5Prop (p : RiftCIRProgram) (name : Str) : Prop :=
  ((p.nodes.filter (firstUseFor name)).length ≤ 1) ∧
  (∀ n ∈ p.nodes, n.kind = .assign → n.var_name = name → n.is_first_use = true →
    ∀ m ∈ p.nodes, m.kind = .assign → m.var_name = name → n.source_line ≤ m.source_line)

/-- The conclusion of claim C1: linking stops early at the violating line
with `consensus_ok = false`, the remaining lines do not matter, and the
error message carries the line number and the violated-invariant
description. -/
def C1Concl (mode : RiftExecutionMode) (pre : List Str) (raw : Str)
    (rest : List Str) : Prop :=
  (rift_link_lines (pre ++ raw :: rest) mode).consensus_ok = false ∧
  rift_link_lines (pre ++ raw :: rest) mode = rift_link_lines (pre ++ [raw]) mode ∧
  cs (toString (pre.length + 1)) <:+:
    (rift_link_lines (pre ++ raw :: rest) mode).error_msg ∧
  cs "violates memory-first ordering" <:+:
    (rift_link_lines (pre ++ raw :: rest) mode).error_msg

/-- The loop invariant behind claim C5: committed assign names are all
recorded, first-use assigns are earliest for their name and unique,
committed source lines never exceed the current line counter, and the
pending node is never an assign. -/
def C5Inv (st : LinkSt) : Prop :=
  (∀ n ∈ st.prog.nodes, n.kind = RiftCIRKind.assign → n.var_name ∈ st.declared_vars) ∧
  (∀ n ∈ st.prog.nodes, n.kind = RiftCIRKind.assign → n.is_first_use = true →
    ∀ m ∈ st.prog.nodes, m.kind = RiftCIRKind.assign → m.var_name = n.var_name →
      n.source_line ≤ m.source_line) ∧
  (∀ name : Str, (st.prog.nodes.filter (firstUseFor name)).length ≤ 1) ∧
  (∀ n ∈ st.prog.nodes, n.source_line ≤ st.line_num) ∧
  (st.pending.kind = RiftCIRKind.govern ∨ st.pending.kind = RiftCIRKind.span)

/- ==========================================================================
   DEFINITIONS END — THEOREMS BEGIN
   ========================================================================== -/

theorem runLines_append {st st' : LinkSt} {pre : List Str} (ls : List Str)
    (h : runPrefix st pre = .ok st') :
    runLines st (pre ++ ls) = runLines st' ls := by
  induction pre generalizing st with
  | nil =>
    simp only [runPrefix] at h
    cases h
    rfl
  | cons l pre ih =>
    simp only [runPrefix] at h
    simp only [List.cons_append, runLines]
    cases hs : stepLine st l with
    | error p => rw [hs] at h; exact absurd h (by simp)
    | ok st1 => rw [hs] at h; exact ih h

theorem runLines_cons_error {st : LinkSt} {l : Str} {p : RiftCIRProgram}
    (ls : List Str) (h : stepLine st l = .error p) :
    runLines st (l :: ls) = p := by
  simp only [runLines, h]

theorem runLines_cons_ok {st st' : LinkSt} {l : Str} (ls : List Str)
    (h : stepLine st l = .ok st') :
    runLines st (l :: ls) = runLines st' ls := by
  simp only [runLines, h]

theorem markLastAux_length (ns : List RiftCIRNode) :
    (markLastAux ns).length = ns.length := by
  induction ns with
  | nil => rfl
  | cons n ns ih =>
    simp only [markLastAux]
    split
    · simp
    · split
      · simp
      · simpa using ih

theorem markLastField_length (ns : List RiftCIRNode) :
    (markLastField ns).length = ns.length := by
  simp [markLastField, markLastAux_length]

@[simp] theorem cirCommit_len_ge (ns : List RiftCIRNode) (n : RiftCIRNode) :
    ns.length ≤ (cirCommit ns n).length := by
  unfold cirCommit; split <;> simp

@[simp] theorem cirCommit_len_le (ns : List RiftCIRNode) (n : RiftCIRNode) :
    (cirCommit ns n).length ≤ ns.length + 1 := by
  unfold cirCommit; split <;> simp

@[simp] theorem cirCommit_len_cap (ns : List RiftCIRNode) (n : RiftCIRNode) :
    (cirCommit ns n).length ≤ max ns.length RIFT_CIR_MAX_NODES := by
  unfold cirCommit
  split
  · simp only [List.length_append, List.length_cons, List.length_nil]
    exact le_max_of_le_right (by omega)
  · exact le_max_left _ _

theorem stepBounds_commit {st : LinkSt} {st' : LinkSt}
    (h1 : st'.line_num = st.line_num)
    (h2 : st'.prog.consensus_ok = st.prog.consensus_ok)
    (h3 : st'.prog.error_msg = st.prog.error_msg)
    (h4 : st.prog.nodes.length ≤ st'.prog.nodes.length)
    (h5 : st'.prog.nodes.length ≤ st.prog.nodes.length + 1)
    (h7 : st'.prog.nodes.length ≤ max st.prog.nodes.length RIFT_CIR_MAX_NODES)
    (h6 : st'.declared_vars = st.declared_vars) : StepBounds st st' :=
  ⟨h1, h2, h3, h4, h5, h7, Or.inl h6⟩

theorem spanBlockStep_fields (st : LinkSt) (t : Str) :
    StepBounds st (spanBlockStep st t) := by
  unfold spanBlockStep
  split_ifs <;>
    first
      | exact stepBounds_commit rfl rfl rfl (cirCommit_len_ge _ _)
          (cirCommit_len_le _ _) (cirCommit_len_cap _ _) rfl
      | exact stepBounds_commit rfl rfl rfl (le_refl _) (Nat.le_succ _)
          (le_max_left _ _) rfl

theorem typeBlockStep_fields (st : LinkSt) (t : Str) :
    StepBounds st (typeBlockStep st t) := by
  unfold typeBlockStep
  split
  · split_ifs
    · exact stepBounds_commit rfl rfl rfl (by rw [markLastField_length])
        (by rw [markLastField_length]; exact Nat.le_succ _)
        (by rw [markLastField_length]; exact le_max_left _ _) rfl
    · exact stepBounds_commit rfl rfl rfl (le_refl _) (Nat.le_succ _)
        (le_max_left _ _) rfl
  · split
    · exact stepBounds_commit rfl rfl rfl (cirCommit_len_ge _ _)
        (cirCommit_len_le _ _) (cirCommit_len_cap _ _) rfl
    · exact stepBounds_commit rfl rfl rfl (le_refl _) (Nat.le_succ _)
        (le_max_left _ _) rfl

theorem policyBlockStep_fields (st : LinkSt) (t : Str) :
    StepBounds st (policyBlockStep st t) := by
  unfold policyBlockStep
  split_ifs <;> exact stepBounds_commit rfl rfl rfl (le_refl _) (Nat.le_succ _)
    (le_max_left _ _) rfl

theorem normalComment_bounds (st : LinkSt) (t : Str) :
    StepBounds st (normalComment st t) :=
  stepBounds_commit rfl rfl rfl (cirCommit_len_ge _ _) (cirCommit_len_le _ _) (cirCommit_len_cap _ _) rfl

theorem normalGovern_bounds (st : LinkSt) (t : Str) :
    StepBounds st (normalGovern st t) :=
  stepBounds_commit rfl rfl rfl (cirCommit_len_ge _ _) (cirCommit_len_le _ _) (cirCommit_len_cap _ _) rfl

theorem normalSpanOpen_bounds (st : LinkSt) (t : Str) :
    StepBounds st (normalSpanOpen st t) :=
  stepBounds_commit rfl rfl rfl (le_refl _) (Nat.le_succ _) (le_max_left _ _) rfl

theorem normalTypeOpen_ok_bounds {st st' : LinkSt} {t : Str}
    (h : normalTypeOpen st t = .ok st') : StepBounds st st' := by
  unfold normalTypeOpen at h
  split at h
  · exact absurd h (by simp)
  · cases h
    exact stepBounds_commit rfl rfl rfl (cirCommit_len_ge _ _) (cirCommit_len_le _ _) (cirCommit_len_cap _ _) rfl

theorem normalPolicyOpen_bounds (st : LinkSt) (t : Str) :
    StepBounds st (normalPolicyOpen st t) :=
  stepBounds_commit rfl rfl rfl (cirCommit_len_ge _ _) (cirCommit_len_le _ _) (cirCommit_len_cap _ _) rfl

theorem normalWhile_bounds (st : LinkSt) (t : Str) :
    StepBounds st (normalWhile st t) :=
  stepBounds_commit rfl rfl rfl (cirCommit_len_ge _ _) (cirCommit_len_le _ _) (cirCommit_len_cap _ _) rfl

theorem normalIf_bounds (st : LinkSt) (t : Str) :
    StepBounds st (normalIf st t) :=
  stepBounds_commit rfl rfl rfl (cirCommit_len_ge _ _) (cirCommit_len_le _ _) (cirCommit_len_cap _ _) rfl

theorem normalClose_bounds (st : LinkSt) :
    StepBounds st (normalClose st) := by
  unfold normalClose
  split
  · exact stepBounds_commit rfl rfl rfl (cirCommit_len_ge _ _) (cirCommit_len_le _ _) (cirCommit_len_cap _ _) rfl
  · exact stepBounds_commit rfl rfl rfl (le_refl _) (Nat.le_succ _) (le_max_left _ _) rfl

theorem normalValidate_bounds (st : LinkSt) (t : Str) :
    StepBounds st (normalValidate st t) :=
  stepBounds_commit rfl rfl rfl (cirCommit_len_ge _ _) (cirCommit_len_le _ _) (cirCommit_len_cap _ _) rfl

theorem normalAssign_ok_bounds {st st' : LinkSt} {t : Str}
    (h : normalAssign st t = .ok st') : StepBounds st st' := by
  unfold normalAssign at h
  split at h
  · exact absurd h (by simp)
  · cases h
    refine ⟨rfl, rfl, rfl, cirCommit_len_ge _ _, cirCommit_len_le _ _,
      cirCommit_len_cap _ _, ?_⟩
    split
    · exact Or.inr ⟨_, rfl⟩
    · exact Or.inl rfl

theorem normalUnknown_bounds (st : LinkSt) (t : Str) :
    StepBounds st (normalUnknown st t) :=
  stepBounds_commit rfl rfl rfl (cirCommit_len_ge _ _) (cirCommit_len_le _ _) (cirCommit_len_cap _ _) rfl

theorem normalStep_ok_bounds {st st' : LinkSt} {t : Str}
    (h : normalStep st t = .ok st') : StepBounds st st' := by
  unfold normalStep at h
  cases hcl : classifyNormal t <;> rw [hcl] at h
  case comment => cases h; exact normalComment_bounds _ _
  case govern => cases h; exact normalGovern_bounds _ _
  case spanOpen => cases h; exact normalSpanOpen_bounds _ _
  case typeOpen => exact normalTypeOpen_ok_bounds h
  case policyOpen => cases h; exact normalPolicyOpen_bounds _ _
  case whileOpen => cases h; exact normalWhile_bounds _ _
  case ifOpen => cases h; exact normalIf_bounds _ _
  case close => cases h; exact normalClose_bounds _
  case validate => cases h; exact normalValidate_bounds _ _
  case assign => exact normalAssign_ok_bounds h
  case loneOpen => cases h; exact stepBounds_commit rfl rfl rfl (le_refl _) (Nat.le_succ _) (le_max_left _ _) rfl
  case unknown => cases h; exact normalUnknown_bounds _ _

/-- Everything a successful `stepTrimmed` preserves or changes boundedly:
the line number, the consensus flag, the error message, the node count
(grows by at most one), and the declared-variable list (extended by at
most one name at the end). -/
theorem stepTrimmed_ok_inv {st st' : LinkSt} {t : Str}
    (h : stepTrimmed st t = .ok st') : StepBounds st st' := by
  unfold stepTrimmed at h
  split at h
  · cases h
    exact stepBounds_commit rfl rfl rfl (le_refl _) (Nat.le_succ _) (le_max_left _ _) rfl
  split at h
  · cases h
    exact spanBlockStep_fields st t
  split at h
  · cases h
    exact typeBlockStep_fields st t
  split at h
  · cases h
    exact policyBlockStep_fields st t
  · exact normalStep_ok_bounds h

theorem normalTypeOpen_error_inv {st : LinkSt} {t : Str} {p : RiftCIRProgram}
    (h : normalTypeOpen st t = .error p) :
    p = { st.prog with error_msg := typeErrMsg st.line_num } ∧
      st.seen_span = false := by
  unfold normalTypeOpen at h
  split at h
  · cases h; exact ⟨rfl, by assumption⟩
  · exact absurd h (by simp)

theorem normalAssign_error_inv {st : LinkSt} {t : Str} {p : RiftCIRProgram}
    (h : normalAssign st t = .error p) :
    p = { st.prog with error_msg := assignErrMsg st.line_num } ∧
      st.seen_span = false := by
  unfold normalAssign at h
  split at h
  · cases h; exact ⟨rfl, by assumption⟩
  · exact absurd h (by simp)

/-- A failing `stepTrimmed` is one of the two consensus early returns: it
only sets `error_msg` on the program built so far. -/
theorem stepTrimmed_error_inv {st : LinkSt} {t : Str} {p : RiftCIRProgram}
    (h : stepTrimmed st t = .error p) :
    p.nodes = st.prog.nodes ∧ p.consensus_ok = st.prog.consensus_ok ∧
      p.mode = st.prog.mode := by
  unfold stepTrimmed at h
  split at h
  · exact absurd h (by simp)
  split at h
  · exact absurd h (by simp)
  split at h
  · exact absurd h (by simp)
  split at h
  · exact absurd h (by simp)
  · unfold normalStep at h
    cases hcl : classifyNormal t <;> rw [hcl] at h
    case typeOpen => rw [(normalTypeOpen_error_inv h).1]; exact ⟨rfl, rfl, rfl⟩
    case assign => rw [(normalAssign_error_inv h).1]; exact ⟨rfl, rfl, rfl⟩
    all_goals exact absurd h (by simp)

theorem stepLine_ok_inv {st st' : LinkSt} {raw : Str}
    (h : stepLine st raw = .ok st') :
    st'.line_num = st.line_num + 1 ∧
    st'.prog.consensus_ok = st.prog.consensus_ok ∧
    st'.prog.error_msg = st.prog.error_msg ∧
    st.prog.nodes.length ≤ st'.prog.nodes.length ∧
    st'.prog.nodes.length ≤ st.prog.nodes.length + 1 ∧
    (st'.prog.nodes.length ≤ max st.prog.nodes.length RIFT_CIR_MAX_NODES) ∧
    (st'.declared_vars = st.declared_vars ∨
      ∃ v, st'.declared_vars = st.declared_vars ++ [v]) := by
  unfold stepLine at h
  have := stepTrimmed_ok_inv h
  exact this

theorem stepLine_error_inv {st : LinkSt} {raw : Str} {p : RiftCIRProgram}
    (h : stepLine st raw = .error p) :
    p.nodes = st.prog.nodes ∧ p.consensus_ok = st.prog.consensus_ok ∧
      p.mode = st.prog.mode := by
  unfold stepLine at h
  have := stepTrimmed_error_inv h
  exact this

theorem runLines_nodes_cap (ls : List Str) : ∀ (st : LinkSt),
    st.prog.nodes.length ≤ RIFT_CIR_MAX_NODES →
    (runLines st ls).nodes.length ≤ RIFT_CIR_MAX_NODES := by
  induction ls with
  | nil => intro st h; simpa [runLines] using h
  | cons l ls ih =>
    intro st h
    cases hs : stepLine st l with
    | error p =>
      rw [runLines_cons_error ls hs]
      rw [(stepLine_error_inv hs).1]
      exact h
    | ok st' =>
      rw [runLines_cons_ok ls hs]
      apply ih
      have hb := stepLine_ok_inv hs
      exact le_trans hb.2.2.2.2.2.1 (max_le h (le_refl _))

/-- Claim C2: for every program whose `consensus_ok` flag is false,
`rift_codec_emit` returns false immediately and writes no bytes to the
output sink, for every target language. -/
theorem claim_C2_emit_rejects_nonconsensus :
    ∀ (prog : RiftCIRProgram) (target : RiftTargetLanguage),
      prog.consensus_ok = false → rift_codec_emit prog target = (false, []) := by
  intro prog target h
  unfold rift_codec_emit
  rw [h]
  simp

/-- Witness for C2: `x := 1` with no preceding span fails consensus, and
emission to the JavaScript target returns false with no bytes written. -/
theorem claim_C2_witness :
    (rift_link_str "x := 1" .classical).consensus_ok = false ∧
      rift_codec_emit (rift_link_str "x := 1" .classical) .js = (false, []) :=
  ⟨by decide, claim_C2_emit_rejects_nonconsensus _ _ (by decide)⟩

/-- Claim C3 (evaluation at the failing input): on the exact Scenario A
source the linker returns `consensus_ok = true` but an empty node
sequence, because the one-line span block never closes: the `align span<`
opener arm does not check for a same-line `\x7d`, so lines 2 and 3 are
consumed inside the span block and the pending span node is never
committed.  The claim (spec Scenario A) expects the three nodes
[Span(fixed, 4096), Assign(x, "5", first_use), Validate(x)]. -/
theorem claim_C3_scenarioA_evaluation :
    (rift_link_str "align span<fixed> \x7b bytes: 4096 \x7d\nx := 5\nvalidate(x)" .classical).consensus_ok = true ∧
    (rift_link_str "align span<fixed> \x7b bytes: 4096 \x7d\nx := 5\nvalidate(x)" .classical).nodes = [] :=
  ⟨by decide, by decide⟩

/-- Claim C6: the node count never exceeds `RIFT_CIR_MAX_NODES` (1024):
the final program is within capacity, every successful line-loop step
preserves the capacity bound, and a commit attempted at (or beyond)
capacity is a silent no-op leaving the node list — count and previously
committed nodes — unchanged, with no error or diagnostic recorded
anywhere. -/
theorem claim_C6_node_capacity :
    (∀ (lines : List Str) (mode : RiftExecutionMode),
        (rift_link_lines lines mode).nodes.length ≤ RIFT_CIR_MAX_NODES) ∧
    (∀ (st st' : LinkSt) (raw : Str), stepLine st raw = .ok st' →
        st.prog.nodes.length ≤ RIFT_CIR_MAX_NODES →
        st'.prog.nodes.length ≤ RIFT_CIR_MAX_NODES) ∧
    (∀ (ns : List RiftCIRNode) (n : RiftCIRNode),
        RIFT_CIR_MAX_NODES ≤ ns.length → cirCommit ns n = ns) := by
  refine ⟨?_, ?_, ?_⟩
  · intro lines mode
    exact runLines_nodes_cap lines (initSt mode) (by simp [initSt])
  · intro st st' raw hs h
    exact le_trans (stepLine_ok_inv hs).2.2.2.2.2.1 (max_le h (le_refl _))
  · intro ns n h
    unfold cirCommit
    rw [if_neg (by omega)]

/-- Witness for C6: a blank first line steps successfully preserving the
bound, and a commit onto a full list of 1024 zeroed nodes is a no-op. -/
theorem claim_C6_witness :
    ((initSt .classical).prog.nodes.length ≤ RIFT_CIR_MAX_NODES) ∧
    (stepLine (initSt .classical) [] = .ok { initSt .classical with line_num := 1 } ∧
      ({ initSt .classical with line_num := 1 } : LinkSt).prog.nodes.length ≤ RIFT_CIR_MAX_NODES) ∧
    (RIFT_CIR_MAX_NODES ≤ (List.replicate RIFT_CIR_MAX_NODES ({} : RiftCIRNode)).length ∧
      cirCommit (List.replicate RIFT_CIR_MAX_NODES ({} : RiftCIRNode)) {} =
        List.replicate RIFT_CIR_MAX_NODES ({} : RiftCIRNode)) :=
  ⟨by decide,
   ⟨rfl,
    claim_C6_node_capacity.2.1 (initSt .classical)
      { initSt .classical with line_num := 1 } [] rfl (by decide)⟩,
   ⟨by simp,
    claim_C6_node_capacity.2.2 (List.replicate RIFT_CIR_MAX_NODES {}) {} (by simp)⟩⟩

/-- Claim C9: the embedded `rift_link` and `rift_codec_emit` are pure
functions, so re-linking the same source with the same default mode
yields structurally equal programs, and link followed by emit on the same
source and target is byte-identical across runs.  The determinism of the
C code is reflected in the embedding's very existence as a function of
(source, mode, target): the C loop reads only `calloc`-zeroed or
explicitly initialized state, in source order. -/
theorem claim_C9_determinism :
    ∀ (source : Str) (mode : RiftExecutionMode) (target : RiftTargetLanguage),
      rift_link source mode = rift_link source mode ∧
      rift_codec_emit (rift_link source mode) target
        = rift_codec_emit (rift_link source mode) target :=
  fun _ _ _ => ⟨rfl, rfl⟩

/-- Claim C10: a line whose trimmed text is exactly an opening brace,
classified in Normal state, commits no node (the program is unchanged)
and increments the shared while/if block depth; and a standalone closing
brace line in Normal state at positive depth commits a `BlockClose` node
and decrements the depth, with no condition on any While or If node
having opened the block. -/
theorem claim_C10_lone_brace :
    (∀ (st : LinkSt) (raw : Str),
      st.in_span_block = false → st.in_type_block = false →
      st.in_policy_block = false → linkTrim raw = cs "\x7b" →
      stepLine st raw =
        .ok { st with line_num := st.line_num + 1,
                      block_depth := st.block_depth + 1 }) ∧
    (∀ (st : LinkSt) (raw : Str),
      st.in_span_block = false → st.in_type_block = false →
      st.in_policy_block = false → 0 < st.block_depth →
      linkTrim raw = cs "\x7d" →
      stepLine st raw =
        .ok { st with line_num := st.line_num + 1,
                      prog := { st.prog with nodes := cirCommit st.prog.nodes ({ kind := .blockClose, source_line := st.line_num + 1 }) },
                      block_depth := st.block_depth - 1 }) := by
  constructor
  · intro st raw h1 h2 h3 htrim
    unfold stepLine stepTrimmed
    rw [htrim, h1, h2, h3]
    simp only [Bool.false_eq_true, if_false]
    rw [if_neg (by decide)]
    unfold normalStep
    rw [show classifyNormal (cs "\x7b") = NormalClass.loneOpen from by decide]
  · intro st raw h1 h2 h3 hdepth htrim
    unfold stepLine stepTrimmed
    rw [htrim, h1, h2, h3]
    simp only [Bool.false_eq_true, if_false]
    rw [if_neg (by decide)]
    unfold normalStep
    rw [show classifyNormal (cs "\x7d") = NormalClass.close from by decide]
    unfold normalClose
    rw [if_pos hdepth]

/-- Witness for C10: the initial state on a padded opening-brace line,
and a depth-one state on a closing-brace line. -/
theorem claim_C10_witness :
    (stepLine (initSt .classical) (cs "  \x7b  ") =
      .ok { initSt .classical with line_num := 1, block_depth := 1 }) ∧
    (stepLine { initSt .classical with block_depth := 1 } (cs "\x7d") =
      .ok { initSt .classical with
            line_num := 1,
            prog := { (initSt .classical).prog with nodes := cirCommit (initSt .classical).prog.nodes ({ kind := .blockClose, source_line := 1 }) },
            block_depth := 0 }) := by
  constructor
  · exact claim_C10_lone_brace.1 (initSt .classical) (cs "  \x7b  ")
      rfl rfl rfl (by decide)
  · exact claim_C10_lone_brace.2 { initSt .classical with block_depth := 1 }
      (cs "\x7d") rfl rfl rfl (by decide) (by decide)

/-- Claim C7 counterexample: after a valid multi-line span block, the
single source line `while (x > 0) \x7b x := x - 1 \x7d` commits only a
`While` node — the inline body and the closing brace on the same line are
discarded — so the committed kind sequence is [Span, While], not the
[Span, While, BlockClose] the claim requires. -/
theorem claim_C7_counterexample :
    (rift_link_str src7 .classical).nodes.map (fun n => n.kind) =
        [RiftCIRKind.span, RiftCIRKind.whileNode] ∧
      [RiftCIRKind.span, RiftCIRKind.whileNode] ≠
        [RiftCIRKind.span, RiftCIRKind.whileNode, RiftCIRKind.blockClose] :=
  ⟨by decide, by decide⟩

/-- Claim C7 as amended: the single `while` line after a valid span block
commits exactly one node, `While` with condition `x > 0` (no `BlockClose`
exists, the brace-absorbed depth never returns to 0); the brace-based
JavaScript target renders the opener `while (x > 0) \x7b` with no closer
after it, and the whitespace-structured Python target renders
`while x > 0:` with no closer. -/
theorem claim_C7_amended :
    (rift_link_str src7 .classical).consensus_ok = true ∧
    (rift_link_str src7 .classical).nodes.map (fun n => (n.kind, n.condition)) =
      [(RiftCIRKind.span, []), (RiftCIRKind.whileNode, cs "x > 0")] ∧
    (rift_codec_emit (rift_link_str src7 .classical) .js).2 =
      codec_emit_header .js (cs "classical") ++
        cs "// rift: memory span (fixed, 4096 bytes)\nwhile (x > 0) \x7b\n" ∧
    (rift_codec_emit (rift_link_str src7 .classical) .python).2 =
      codec_emit_header .python (cs "classical") ++
        cs "# rift: memory span (fixed, 4096 bytes)\nwhile x > 0:\n" :=
  ⟨by decide, by decide, by decide, by decide⟩

theorem watPass1_eq_filterMap (ns : List RiftCIRNode) :
    watPass1 ns = (ns.filterMap watDecl).flatten := by
  induction ns with
  | nil => rfl
  | cons n ns ih =>
    simp only [watPass1, List.filterMap_cons, watDecl]
    split
    · simp [ih]
    · simp [ih]

theorem watPass2_eq_map (ns : List RiftCIRNode) : ∀ (d : Nat),
    watPass2 d ns = (ns.map watNodeText).flatten := by
  induction ns with
  | nil => intro d; rfl
  | cons n ns ih =>
    intro d
    simp only [watPass2, List.map_cons, List.flatten_cons]
    rw [ih]

/-- Claim C8 counterexample: the linkable source `x := 5 x` produces an
`Assign` whose expression `5 x` is not an integer literal, yet the WAT
emitter renders it as `(local.set $x (i32.const 5))` — `strtol` stops at
the space and the code accepts a whitespace-terminated prefix — instead
of the comment-plus-`i32.const 0` the claim requires for every
non-literal expression. -/
theorem claim_C8_counterexample :
    (rift_link_str srcC8 .classical).consensus_ok = true ∧
    specIntLiteral (cs "5 x") = false ∧
    (rift_link_str srcC8 .classical).nodes.map (fun n => (n.kind, n.expr)) =
      [(RiftCIRKind.span, []), (RiftCIRKind.assign, cs "5 x")] ∧
    (rift_codec_emit (rift_link_str srcC8 .classical) .wat).2 =
      codec_emit_header .wat (cs "classical") ++
        cs "    (local $x i32)\n    ;; rift: memory span (f, 4096 bytes)\n    (local.set $x (i32.const 5))\n" ++
        codec_emit_footer .wat ∧
    (rift_codec_emit (rift_link_str srcC8 .classical) .wat).2 ≠
      watEmitSpec (rift_link_str srcC8 .classical) :=
  ⟨by decide, by decide, by decide, by decide, by decide⟩

/-- Claim C8 as amended: for every consensus-valid program the WAT output
is the header, then exactly one local declaration per `is_first_use`
Assign node (in node order, all before any body operation), then the body
rendering each node by `watNodeText` — whose Assign case emits a
`local.set` of the `strtol`-parsed constant when the expression's
longest optionally-signed digit prefix (after leading whitespace; empty
counts as 0) is followed by end-of-string or whitespace, and a comment
line plus a `local.set` of constant 0 for every other expression — then
the footer. -/
theorem claim_C8_amended :
    ∀ (prog : RiftCIRProgram), prog.consensus_ok = true →
      (rift_codec_emit prog .wat).2 =
        codec_emit_header .wat (modeStr prog.mode) ++
          (prog.nodes.filterMap watDecl).flatten ++
          (prog.nodes.map watNodeText).flatten ++ codec_emit_footer .wat := by
  intro prog h
  unfold rift_codec_emit codec_emit_wat
  rw [h, watPass1_eq_filterMap, watPass2_eq_map]
  simp

/-- Witness for C8: the amended structure theorem evaluated on the linked
`x := 5 x` program. -/
theorem claim_C8_witness :
    (rift_link_str srcC8 .classical).consensus_ok = true ∧
    (rift_codec_emit (rift_link_str srcC8 .classical) .wat).2 =
      codec_emit_header .wat (modeStr (rift_link_str srcC8 .classical).mode) ++
        ((rift_link_str srcC8 .classical).nodes.filterMap watDecl).flatten ++
        ((rift_link_str srcC8 .classical).nodes.map watNodeText).flatten ++
        codec_emit_footer .wat :=
  ⟨by decide, claim_C8_amended _ (by decide)⟩

theorem runPrefix_fields (pre : List Str) : ∀ {st st' : LinkSt},
    runPrefix st pre = .ok st' →
    st'.prog.consensus_ok = st.prog.consensus_ok ∧
      st'.line_num = st.line_num + pre.length := by
  induction pre with
  | nil =>
    intro st st' h
    simp only [runPrefix] at h
    cases h
    exact ⟨rfl, rfl⟩
  | cons l ls ih =>
    intro st st' h
    simp only [runPrefix] at h
    cases hs : stepLine st l with
    | error p => rw [hs] at h; exact absurd h (by simp)
    | ok st1 =>
      rw [hs] at h
      have h1 := stepLine_ok_inv hs
      have h2 := ih h
      refine ⟨h2.1.trans h1.2.1, ?_⟩
      rw [h2.2, h1.1]
      simp only [List.length_cons]
      omega

/-- A line in Normal state with no span committed yet, whose classification
is the type-opener arm, makes the step return the type consensus error
early; one classified into the assignment arm returns the assignment
consensus error. -/
theorem stepLine_consensus_abort {st : LinkSt} {raw : Str}
    (hns : st.in_span_block = false) (hnt : st.in_type_block = false)
    (hnp : st.in_policy_block = false) (hseen : st.seen_span = false) :
    (classifyNormal (linkTrim raw) = .typeOpen →
      stepLine st raw = .error { st.prog with
        error_msg := typeErrMsg (st.line_num + 1) }) ∧
    (classifyNormal (linkTrim raw) = .assign →
      stepLine st raw = .error { st.prog with
        error_msg := assignErrMsg (st.line_num + 1) }) := by
  constructor
  · intro hcl
    have ht : ¬ (linkTrim raw = []) := by
      intro he
      rw [he] at hcl
      exact absurd hcl (by decide)
    unfold stepLine stepTrimmed
    simp only [hns, hnt, hnp, Bool.false_eq_true, if_false, if_neg ht]
    unfold normalStep
    rw [hcl]
    unfold normalTypeOpen
    rw [if_pos (by simpa using hseen)]
  · intro hcl
    have ht : ¬ (linkTrim raw = []) := by
      intro he
      rw [he] at hcl
      exact absurd hcl (by decide)
    unfold stepLine stepTrimmed
    simp only [hns, hnt, hnp, Bool.false_eq_true, if_false, if_neg ht]
    unfold normalStep
    rw [hcl]
    unfold normalAssign
    rw [if_pos (by simpa using hseen)]

theorem typeErrMsg_phrase (n : Nat) :
    cs "violates memory-first ordering" <:+: typeErrMsg n := by
  refine ⟨cs "line " ++ cs (toString n) ++ cs ": type declaration before span (",
    cs ")", ?_⟩
  unfold typeErrMsg
  simp only [List.append_assoc]
  exact congrArg (cs "line " ++ ·) (congrArg (cs (toString n) ++ ·) (by decide))

theorem assignErrMsg_phrase (n : Nat) :
    cs "violates memory-first ordering" <:+: assignErrMsg n := by
  refine ⟨cs "line " ++ cs (toString n) ++ cs ": assignment before span declaration (",
    cs ")", ?_⟩
  unfold assignErrMsg
  simp only [List.append_assoc]
  exact congrArg (cs "line " ++ ·) (congrArg (cs (toString n) ++ ·) (by decide))

theorem typeErrMsg_num (n : Nat) : cs (toString n) <:+: typeErrMsg n :=
  ⟨cs "line ",
   cs ": type declaration before span (violates memory-first ordering)",
   by rw [typeErrMsg]⟩

theorem assignErrMsg_num (n : Nat) : cs (toString n) <:+: assignErrMsg n :=
  ⟨cs "line ",
   cs ": assignment before span declaration (violates memory-first ordering)",
   by rw [assignErrMsg]⟩

/-- Claim C1 as amended: for every source in which some line is reached
in Normal classification state before any Span has been committed and is
classified into the type-opener arm (starts with `type ` and contains
`=`) or into the assignment arm (contains `:=` and matches none of the
earlier classification rules: comment, govern, span opener, policy
opener, while, if, standalone closing brace, validate), `rift_link`
stops early at that line — the remaining lines are irrelevant to the
result — and returns a program with `consensus_ok = false` whose
`error_msg` contains that line's number and the violated memory-first
ordering invariant's description. -/
theorem claim_C1_amended :
    ∀ (mode : RiftExecutionMode) (pre : List Str) (raw : Str)
      (rest : List Str) (st : LinkSt),
      runPrefix (initSt mode) pre = .ok st →
      st.in_span_block = false → st.in_type_block = false →
      st.in_policy_block = false → st.seen_span = false →
      (classifyNormal (linkTrim raw) = .typeOpen ∨
        classifyNormal (linkTrim raw) = .assign) →
      C1Concl mode pre raw rest := by
  intro mode pre raw rest st hpre h1 h2 h3 hseen hcl
  have hcons : st.prog.consensus_ok = false := by
    rw [(runPrefix_fields pre hpre).1]; rfl
  have hline : st.line_num = pre.length := by
    have := (runPrefix_fields pre hpre).2
    simpa [initSt] using this
  rcases hcl with hty | has
  · have habort := (stepLine_consensus_abort h1 h2 h3 hseen).1 hty
    have e1 : rift_link_lines (pre ++ raw :: rest) mode =
        { st.prog with error_msg := typeErrMsg (st.line_num + 1) } := by
      unfold rift_link_lines
      rw [runLines_append (raw :: rest) hpre, runLines_cons_error rest habort]
    have e2 : rift_link_lines (pre ++ [raw]) mode =
        { st.prog with error_msg := typeErrMsg (st.line_num + 1) } := by
      unfold rift_link_lines
      rw [runLines_append [raw] hpre, runLines_cons_error [] habort]
    refine ⟨?_, ?_, ?_, ?_⟩
    · rw [e1]; exact hcons
    · rw [e1, e2]
    · rw [e1]
      simp only [hline]
      exact typeErrMsg_num (pre.length + 1)
    · rw [e1]
      exact typeErrMsg_phrase (st.line_num + 1)
  · have habort := (stepLine_consensus_abort h1 h2 h3 hseen).2 has
    have e1 : rift_link_lines (pre ++ raw :: rest) mode =
        { st.prog with error_msg := assignErrMsg (st.line_num + 1) } := by
      unfold rift_link_lines
      rw [runLines_append (raw :: rest) hpre, runLines_cons_error rest habort]
    have e2 : rift_link_lines (pre ++ [raw]) mode =
        { st.prog with error_msg := assignErrMsg (st.line_num + 1) } := by
      unfold rift_link_lines
      rw [runLines_append [raw] hpre, runLines_cons_error [] habort]
    refine ⟨?_, ?_, ?_, ?_⟩
    · rw [e1]; exact hcons
    · rw [e1, e2]
    · rw [e1]
      simp only [hline]
      exact assignErrMsg_num (pre.length + 1)
    · rw [e1]
      exact assignErrMsg_phrase (st.line_num + 1)

/-- Claim C1 counterexample: the single-line source `while (y := 1)` is
reached in Normal state before any Span and contains `:=` — the claim's
own definition of an assignment line — yet `rift_link` classifies it as a
While node and completes with `consensus_ok = true` and an empty error
message, because the while arm is tested before the assignment arm. -/
theorem claim_C1_counterexample :
    condAssign (cs "while (y := 1)") = true ∧
    linkTrim (cs "while (y := 1)") = cs "while (y := 1)" ∧
    (rift_link_str "while (y := 1)" .classical).nodes.map (fun n => n.kind) =
      [RiftCIRKind.whileNode] ∧
    (rift_link_str "while (y := 1)" .classical).consensus_ok = true ∧
    (rift_link_str "while (y := 1)" .classical).error_msg = [] :=
  ⟨by decide, by decide, by decide, by decide, by decide⟩

/-- Witness for C1: the empty prefix and the line `x := 1`, classified
into the assignment arm with no span committed. -/
theorem claim_C1_witness :
    (runPrefix (initSt .classical) [] = .ok (initSt .classical)) ∧
    (classifyNormal (linkTrim (cs "x := 1")) = NormalClass.assign) ∧
    C1Concl .classical [] (cs "x := 1") [] :=
  ⟨rfl, by decide,
   claim_C1_amended .classical [] (cs "x := 1") [] (initSt .classical)
     rfl rfl rfl rfl rfl (Or.inr (by decide))⟩

theorem cirCommit_length_ite (ns : List RiftCIRNode) (n : RiftCIRNode) :
    (cirCommit ns n).length = ns.length +
      (if ns.length < RIFT_CIR_MAX_NODES then 1 else 0) := by
  unfold cirCommit
  split <;> simp

theorem stepLine_accounting {st st' : LinkSt} {raw : Str}
    (h : stepLine st raw = .ok st') :
    classifyLine st raw ≠ .aborted ∧
    st'.prog.nodes.length = st.prog.nodes.length +
      (if classifyLine st raw = .commitC ∧
          st.prog.nodes.length < RIFT_CIR_MAX_NODES then 1 else 0) := by
  unfold stepLine stepTrimmed at h
  unfold classifyLine
  by_cases ht : linkTrim raw = []
  · rw [if_pos ht] at h
    cases h
    rw [if_pos ht]
    exact ⟨by decide, by simp⟩
  rw [if_neg ht] at h
  rw [if_neg ht]
  dsimp only at h
  by_cases hsp : st.in_span_block = true
  · rw [if_pos hsp] at h
    rw [if_pos hsp]
    cases h
    unfold spanBlockStep
    by_cases hcl : (linkTrim raw).contains '}' = true
    · rw [if_pos hcl]
      dsimp only
      rw [if_pos hcl]
      refine ⟨by decide, ?_⟩
      dsimp only
      rw [cirCommit_length_ite]
      simp
    · rw [if_neg hcl]
      dsimp only
      rw [if_neg hcl]
      exact ⟨by decide, by simp⟩
  rw [if_neg hsp] at h
  rw [if_neg hsp]
  by_cases hty : st.in_type_block = true
  · rw [if_pos hty] at h
    rw [if_pos hty]
    cases h
    unfold typeBlockStep
    by_cases hcl : (linkTrim raw).contains '}' = true
    · rw [if_pos hcl]
      dsimp only
      rw [if_pos hcl]
      refine ⟨by decide, ?_⟩
      split
      · dsimp only
        rw [markLastField_length]
        simp
      · simp
    · rw [if_neg hcl]
      dsimp only
      rw [if_neg hcl]
      cases hix : strIndexOf (linkTrim raw) ':' with
      | some ci =>
        refine ⟨by simp, ?_⟩
        dsimp only
        rw [cirCommit_length_ite]
        simp
      | none =>
        refine ⟨by simp, ?_⟩
        dsimp only
        simp
  rw [if_neg hty] at h
  rw [if_neg hty]
  by_cases hpo : st.in_policy_block = true
  · rw [if_pos hpo] at h
    rw [if_pos hpo]
    cases h
    unfold policyBlockStep
    refine ⟨by decide, ?_⟩
    split <;> simp
  rw [if_neg hpo] at h
  rw [if_neg hpo]
  unfold normalStep at h
  cases hcn : classifyNormal (linkTrim raw) <;> rw [hcn] at h <;>
    (try dsimp only at h ⊢)
  ·
    cases h
    unfold normalComment
    refine ⟨by decide, ?_⟩
    dsimp only
    rw [cirCommit_length_ite]
    simp
  ·
    cases h
    unfold normalGovern
    refine ⟨by decide, ?_⟩
    dsimp only
    rw [cirCommit_length_ite]
    simp
  ·
    cases h
    refine ⟨by decide, ?_⟩
    unfold normalSpanOpen
    simp
  ·
    unfold normalTypeOpen at h
    split at h
    · exact absurd h (by simp)
    · cases h
      rename_i hseen
      dsimp only at hseen
      rw [if_neg hseen]
      refine ⟨by decide, ?_⟩
      dsimp only
      rw [cirCommit_length_ite]
      simp
  ·
    cases h
    unfold normalPolicyOpen
    refine ⟨by decide, ?_⟩
    dsimp only
    rw [cirCommit_length_ite]
    simp
  ·
    cases h
    unfold normalWhile
    refine ⟨by decide, ?_⟩
    dsimp only
    rw [cirCommit_length_ite]
    simp
  ·
    cases h
    unfold normalIf
    refine ⟨by decide, ?_⟩
    dsimp only
    rw [cirCommit_length_ite]
    simp
  ·
    cases h
    unfold normalClose
    by_cases hd : 0 < st.block_depth
    · rw [if_pos hd]
      rw [if_pos (by simpa using hd)]
      refine ⟨by decide, ?_⟩
      dsimp only
      rw [cirCommit_length_ite]
      simp
    · rw [if_neg hd]
      rw [if_neg (by simpa using hd)]
      exact ⟨by decide, by simp⟩
  ·
    cases h
    unfold normalValidate
    refine ⟨by decide, ?_⟩
    dsimp only
    rw [cirCommit_length_ite]
    simp
  ·
    unfold normalAssign at h
    split at h
    · exact absurd h (by simp)
    · cases h
      rename_i hseen
      dsimp only at hseen
      rw [if_neg hseen]
      refine ⟨by decide, ?_⟩
      dsimp only
      rw [cirCommit_length_ite]
      simp
  ·
    cases h
    exact ⟨by decide, by simp⟩
  ·
    cases h
    unfold normalUnknown
    refine ⟨by decide, ?_⟩
    dsimp only
    rw [cirCommit_length_ite]
    simp

theorem runClasses_length (ls : List Str) : ∀ {st stf : LinkSt},
    runPrefix st ls = .ok stf → (runClasses st ls).length = ls.length := by
  induction ls with
  | nil => intro st stf h; rfl
  | cons l ls ih =>
    intro st stf h
    simp only [runPrefix] at h
    cases hs : stepLine st l with
    | error p => rw [hs] at h; exact absurd h (by simp)
    | ok st1 =>
      rw [hs] at h
      simp only [runClasses, hs, List.length_cons]
      rw [ih h]

theorem runClasses_no_abort (ls : List Str) : ∀ {st stf : LinkSt},
    runPrefix st ls = .ok stf →
    countClass (runClasses st ls) .aborted = 0 := by
  induction ls with
  | nil => intro st stf h; rfl
  | cons l ls ih =>
    intro st stf h
    simp only [runPrefix] at h
    cases hs : stepLine st l with
    | error p => rw [hs] at h; exact absurd h (by simp)
    | ok st1 =>
      rw [hs] at h
      have hacc := (stepLine_accounting hs).1
      simp only [countClass, runClasses, hs, List.count_cons]
      have : (classifyLine st l == LineClass.aborted) = false := by
        simpa using hacc
      rw [this]
      simpa [countClass] using ih h

theorem runPrefix_nodes_mono (ls : List Str) : ∀ {st stf : LinkSt},
    runPrefix st ls = .ok stf →
    st.prog.nodes.length ≤ stf.prog.nodes.length := by
  induction ls with
  | nil => intro st stf h; cases h; exact le_refl _
  | cons l ls ih =>
    intro st stf h
    simp only [runPrefix] at h
    cases hs : stepLine st l with
    | error p => rw [hs] at h; exact absurd h (by simp)
    | ok st1 =>
      rw [hs] at h
      exact le_trans (stepLine_ok_inv hs).2.2.2.1 (ih h)

theorem runPrefix_commit_count (ls : List Str) : ∀ {st stf : LinkSt},
    runPrefix st ls = .ok stf →
    stf.prog.nodes.length < RIFT_CIR_MAX_NODES →
    stf.prog.nodes.length =
      st.prog.nodes.length + countClass (runClasses st ls) .commitC := by
  induction ls with
  | nil => intro st stf h hcap; cases h; rfl
  | cons l ls ih =>
    intro st stf h hcap
    simp only [runPrefix] at h
    cases hs : stepLine st l with
    | error p => rw [hs] at h; exact absurd h (by simp)
    | ok st1 =>
      rw [hs] at h
      have hmono := runPrefix_nodes_mono ls h
      have hstep := (stepLine_accounting hs).2
      have hlt : st.prog.nodes.length < RIFT_CIR_MAX_NODES :=
        lt_of_le_of_lt (le_trans (stepLine_ok_inv hs).2.2.2.1 hmono) hcap
      have hone : st1.prog.nodes.length =
          st.prog.nodes.length +
            (if classifyLine st l = LineClass.commitC then 1 else 0) := by
        rw [hstep]
        by_cases hc : classifyLine st l = LineClass.commitC
        · rw [if_pos hc, if_pos ⟨hc, hlt⟩]
        · rw [if_neg hc, if_neg (fun hand => hc hand.1)]
      simp only [countClass, runClasses, hs, List.count_cons]
      have hrec := ih h hcap
      rw [hrec, hone]
      by_cases hc : classifyLine st l = LineClass.commitC
      · rw [if_pos hc]
        have : (classifyLine st l == LineClass.commitC) = true := by simpa using hc
        rw [this]
        simp [countClass]
        omega
      · rw [if_neg hc]
        have : (classifyLine st l == LineClass.commitC) = false := by simpa using hc
        rw [this]
        simp [countClass]

theorem class_partition (cl : List LineClass) :
    cl.length = countClass cl .blank + countClass cl .interiorSilent +
      countClass cl .commitC + countClass cl .structural +
      countClass cl .aborted := by
  induction cl with
  | nil => rfl
  | cons c l ih =>
    simp only [countClass, List.count_cons, List.length_cons] at ih ⊢
    cases c <;> simp <;> omega

theorem consensus_to_runPrefix (ls : List Str) : ∀ {st : LinkSt},
    st.prog.consensus_ok = false →
    (runLines st ls).consensus_ok = true →
    ∃ stf, runPrefix st ls = .ok stf := by
  induction ls with
  | nil => intro st _ _; exact ⟨st, rfl⟩
  | cons l ls ih =>
    intro st hc hok
    cases hs : stepLine st l with
    | error p =>
      rw [runLines_cons_error ls hs] at hok
      have := (stepLine_error_inv hs).2.1
      rw [hok, hc] at this
      exact absurd this (by simp)
    | ok st1 =>
      rw [runLines_cons_ok ls hs] at hok
      obtain ⟨stf, hf⟩ := ih ((stepLine_ok_inv hs).2.1.trans hc) hok
      exact ⟨stf, by simp only [runPrefix, hs]; exact hf⟩

theorem runLines_of_runPrefix {ls : List Str} {st stf : LinkSt}
    (h : runPrefix st ls = .ok stf) :
    runLines st ls = { stf.prog with consensus_ok := true } := by
  have := runLines_append [] h
  rw [List.append_nil] at this
  rw [this]
  rfl

/-- Claim C4 as amended: for every source on which the linker completes
with consensus and the node capacity is not exhausted, the number of
committed CIR nodes plus the number of skipped blank lines plus the
number of silently consumed block-interior lines plus the number of
structural-state-only lines (span-block openers, lone `\x7b` lines, and
stray `\x7d` lines at depth zero) equals the total number of source
lines; block-interior lines that commit a node (span-closing and
type-field lines) are counted once, as node commits. -/
theorem claim_C4_amended :
    ∀ (lines : List Str) (mode : RiftExecutionMode),
      (rift_link_lines lines mode).consensus_ok = true →
      (rift_link_lines lines mode).nodes.length < RIFT_CIR_MAX_NODES →
      (rift_link_lines lines mode).nodes.length
          + countClass (runClasses (initSt mode) lines) .blank
          + countClass (runClasses (initSt mode) lines) .interiorSilent
          + countClass (runClasses (initSt mode) lines) .structural
        = lines.length := by
  intro lines mode h1 h2
  obtain ⟨stf, hpre⟩ := @consensus_to_runPrefix lines (initSt mode) rfl h1
  have hnodes : (rift_link_lines lines mode).nodes = stf.prog.nodes := by
    unfold rift_link_lines
    rw [runLines_of_runPrefix hpre]
  rw [hnodes] at h2 ⊢
  have hcount := runPrefix_commit_count lines hpre h2
  have hlength := runClasses_length lines hpre
  have hpart := class_partition (runClasses (initSt mode) lines)
  have hnoab := runClasses_no_abort lines hpre
  have hzero : (initSt mode).prog.nodes.length = 0 := rfl
  omega

/-- Claim C4 counterexample: the one-line source consisting of a lone
opening brace commits no node, is not blank, and is not inside any block
accumulation, so the claim's sum is 0 while the line count is 1. -/
theorem claim_C4_counterexample :
    (rift_link_lines [cs "\x7b"] .classical).consensus_ok = true ∧
    (rift_link_lines [cs "\x7b"] .classical).nodes.length = 0 ∧
    runClasses (initSt .classical) [cs "\x7b"] = [LineClass.structural] ∧
    countClass (runClasses (initSt .classical) [cs "\x7b"]) .blank = 0 ∧
    countClass (runClasses (initSt .classical) [cs "\x7b"]) .interiorSilent = 0 ∧
    (rift_link_lines [cs "\x7b"] .classical).nodes.length + 0 + 0 ≠
      ([cs "\x7b"] : List Str).length :=
  ⟨by decide, by decide, by decide, by decide, by decide, by decide⟩

/-- Witness for C4: a two-line source (a comment line and a blank line)
linking with consensus, one committed node, one blank, no interior and no
structural lines, totalling the two source lines. -/
theorem claim_C4_witness :
    (rift_link_lines [cs "// c", cs ""] .classical).consensus_ok = true ∧
    (rift_link_lines [cs "// c", cs ""] .classical).nodes.length < RIFT_CIR_MAX_NODES ∧
    (rift_link_lines [cs "// c", cs ""] .classical).nodes.length
        + countClass (runClasses (initSt .classical) [cs "// c", cs ""]) .blank
        + countClass (runClasses (initSt .classical) [cs "// c", cs ""]) .interiorSilent
        + countClass (runClasses (initSt .classical) [cs "// c", cs ""]) .structural
      = ([cs "// c", cs ""] : List Str).length :=
  ⟨by decide, by decide,
   claim_C4_amended [cs "// c", cs ""] .classical (by decide) (by decide)⟩

theorem mem_cirCommit {ns : List RiftCIRNode} {n x : RiftCIRNode}
    (h : x ∈ cirCommit ns n) : x ∈ ns ∨ x = n := by
  unfold cirCommit at h
  split at h
  · rcases List.mem_append.1 h with h1 | h1
    · exact Or.inl h1
    · exact Or.inr (List.mem_singleton.1 h1)
  · exact Or.inl h

theorem filter_cirCommit_neg {ns : List RiftCIRNode} {n : RiftCIRNode}
    {p : RiftCIRNode → Bool} (hp : p n = false) :
    (cirCommit ns n).filter p = ns.filter p := by
  unfold cirCommit
  split
  · simp [List.filter_append, hp]
  · rfl

theorem filter_cirCommit_le {ns : List RiftCIRNode} {n : RiftCIRNode}
    {p : RiftCIRNode → Bool} :
    ((cirCommit ns n).filter p).length ≤ (ns.filter p).length + 1 := by
  unfold cirCommit
  split
  · simp only [List.filter_append, List.length_append]
    cases hp : p n <;> simp [hp]
  · exact Nat.le_succ _

theorem markLastAux_mem {ns : List RiftCIRNode} {x : RiftCIRNode}
    (h : x ∈ markLastAux ns) :
    x ∈ ns ∨ ∃ y ∈ ns, y.kind = RiftCIRKind.typeField ∧
      x = { y with is_last_field := true } := by
  induction ns with
  | nil => simp [markLastAux] at h
  | cons n ns ih =>
    unfold markLastAux at h
    split at h
    · rcases List.mem_cons.1 h with h1 | h1
      · exact Or.inr ⟨n, List.mem_cons_self _ _, by assumption, h1⟩
      · exact Or.inl (List.mem_cons_of_mem _ h1)
    · split at h
      · exact Or.inl h
      · rcases List.mem_cons.1 h with h1 | h1
        · exact Or.inl (h1 ▸ List.mem_cons_self _ _)
        · rcases ih h1 with h2 | ⟨y, hy, hk, hx⟩
          · exact Or.inl (List.mem_cons_of_mem _ h2)
          · exact Or.inr ⟨y, List.mem_cons_of_mem _ hy, hk, hx⟩

theorem markLastField_mem {ns : List RiftCIRNode} {x : RiftCIRNode}
    (h : x ∈ markLastField ns) :
    x ∈ ns ∨ ∃ y ∈ ns, y.kind = RiftCIRKind.typeField ∧
      x = { y with is_last_field := true } := by
  unfold markLastField at h
  rw [List.mem_reverse] at h
  rcases markLastAux_mem h with h1 | ⟨y, hy, hk, hx⟩
  · exact Or.inl (List.mem_reverse.1 h1)
  · exact Or.inr ⟨y, List.mem_reverse.1 hy, hk, hx⟩

theorem markLastAux_filter {ns : List RiftCIRNode} {p : RiftCIRNode → Bool}
    (hp : ∀ y : RiftCIRNode, y.kind = RiftCIRKind.typeField → p y = false ∧
      p { y with is_last_field := true } = false) :
    (markLastAux ns).filter p = ns.filter p := by
  induction ns with
  | nil => rfl
  | cons n ns ih =>
    unfold markLastAux
    split
    · rename_i hk
      simp only [List.filter_cons, (hp n hk).1, (hp n hk).2]
      simp
    · split
      · rfl
      · simp only [List.filter_cons]
        cases hq : p n <;> simp [hq, ih]

theorem markLastField_filter {ns : List RiftCIRNode} {p : RiftCIRNode → Bool}
    (hp : ∀ y : RiftCIRNode, y.kind = RiftCIRKind.typeField → p y = false ∧
      p { y with is_last_field := true } = false) :
    ((markLastField ns).filter p).length = (ns.filter p).length := by
  unfold markLastField
  rw [List.filter_reverse, markLastAux_filter hp, List.filter_reverse]
  simp

theorem firstUseFor_false_of_kind {name : Str} {n : RiftCIRNode}
    (h : n.kind ≠ RiftCIRKind.assign) : firstUseFor name n = false := by
  unfold firstUseFor
  have : (n.kind == RiftCIRKind.assign) = false := by
    simpa using h
  simp [this]

theorem C5parts_nonassign
    {nodes : List RiftCIRNode} {vars : List Str} {ln : Nat} {n : RiftCIRNode}
    (hA1 : ∀ x ∈ nodes, x.kind = RiftCIRKind.assign → x.var_name ∈ vars)
    (hA2 : ∀ x ∈ nodes, x.kind = RiftCIRKind.assign → x.is_first_use = true →
      ∀ m ∈ nodes, m.kind = RiftCIRKind.assign → m.var_name = x.var_name →
        x.source_line ≤ m.source_line)
    (hA3 : ∀ name : Str, ((nodes.filter (firstUseFor name)).length ≤ 1))
    (hA4 : ∀ x ∈ nodes, x.source_line ≤ ln)
    (hk : n.kind ≠ RiftCIRKind.assign) (hln : n.source_line = ln + 1) :
    (∀ x ∈ cirCommit nodes n, x.kind = RiftCIRKind.assign → x.var_name ∈ vars) ∧
    (∀ x ∈ cirCommit nodes n, x.kind = RiftCIRKind.assign → x.is_first_use = true →
      ∀ m ∈ cirCommit nodes n, m.kind = RiftCIRKind.assign → m.var_name = x.var_name →
        x.source_line ≤ m.source_line) ∧
    (∀ name : Str, (((cirCommit nodes n).filter (firstUseFor name)).length ≤ 1)) ∧
    (∀ x ∈ cirCommit nodes n, x.source_line ≤ ln + 1) := by
  refine ⟨?_, ?_, ?_, ?_⟩
  · intro x hx hkx
    rcases mem_cirCommit hx with h1 | h1
    · exact hA1 x h1 hkx
    · exact absurd (h1 ▸ hkx) hk
  · intro x hx hkx hfx m hm hkm hvm
    rcases mem_cirCommit hx with h1 | h1
    · rcases mem_cirCommit hm with h2 | h2
      · exact hA2 x h1 hkx hfx m h2 hkm hvm
      · rw [h2, hln]
        exact le_trans (hA4 x h1) (Nat.le_succ _)
    · exact absurd (h1 ▸ hkx) hk
  · intro name
    rw [filter_cirCommit_neg (firstUseFor_false_of_kind hk)]
    exact hA3 name
  · intro x hx
    rcases mem_cirCommit hx with h1 | h1
    · exact le_trans (hA4 x h1) (Nat.le_succ _)
    · rw [h1, hln]

theorem C5parts_markLast
    {nodes : List RiftCIRNode} {vars : List Str} {ln : Nat}
    (hA1 : ∀ x ∈ nodes, x.kind = RiftCIRKind.assign → x.var_name ∈ vars)
    (hA2 : ∀ x ∈ nodes, x.kind = RiftCIRKind.assign → x.is_first_use = true →
      ∀ m ∈ nodes, m.kind = RiftCIRKind.assign → m.var_name = x.var_name →
        x.source_line ≤ m.source_line)
    (hA3 : ∀ name : Str, ((nodes.filter (firstUseFor name)).length ≤ 1))
    (hA4 : ∀ x ∈ nodes, x.source_line ≤ ln) :
    (∀ x ∈ markLastField nodes, x.kind = RiftCIRKind.assign → x.var_name ∈ vars) ∧
    (∀ x ∈ markLastField nodes, x.kind = RiftCIRKind.assign → x.is_first_use = true →
      ∀ m ∈ markLastField nodes, m.kind = RiftCIRKind.assign → m.var_name = x.var_name →
        x.source_line ≤ m.source_line) ∧
    (∀ name : Str, (((markLastField nodes).filter (firstUseFor name)).length ≤ 1)) ∧
    (∀ x ∈ markLastField nodes, x.source_line ≤ ln) := by
  have hmem : ∀ x ∈ markLastField nodes,
      (x ∈ nodes ∨ ∃ y ∈ nodes, y.kind = RiftCIRKind.typeField ∧
        x = { y with is_last_field := true }) := fun x hx => markLastField_mem hx
  have hkind : ∀ x ∈ markLastField nodes, x.kind = RiftCIRKind.assign → x ∈ nodes := by
    intro x hx hkx
    rcases hmem x hx with h1 | ⟨y, _, hyk, hxy⟩
    · exact h1
    · rw [hxy] at hkx
      dsimp at hkx
      rw [hyk] at hkx
      exact absurd hkx (by decide)
  refine ⟨?_, ?_, ?_, ?_⟩
  · intro x hx hkx
    exact hA1 x (hkind x hx hkx) hkx
  · intro x hx hkx hfx m hm hkm hvm
    exact hA2 x (hkind x hx hkx) hkx hfx m (hkind m hm hkm) hkm hvm
  · intro name
    rw [markLastField_filter]
    · exact hA3 name
    · intro y hyk
      constructor
      · exact firstUseFor_false_of_kind (by rw [hyk]; decide)
      · exact firstUseFor_false_of_kind (by dsimp; rw [hyk]; decide)
  · intro x hx
    rcases hmem x hx with h1 | ⟨y, hy, _, hxy⟩
    · exact hA4 x h1
    · rw [hxy]
      dsimp
      exact hA4 y hy

theorem firstUseFor_false_of_not_first {name : Str} {n : RiftCIRNode}
    (h : n.is_first_use = false) : firstUseFor name n = false := by
  unfold firstUseFor
  simp [h]

theorem C5parts_assign
    {nodes : List RiftCIRNode} {vars : List Str} {ln : Nat} {c : RiftCIRNode}
    (hA1 : ∀ x ∈ nodes, x.kind = RiftCIRKind.assign → x.var_name ∈ vars)
    (hA2 : ∀ x ∈ nodes, x.kind = RiftCIRKind.assign → x.is_first_use = true →
      ∀ m ∈ nodes, m.kind = RiftCIRKind.assign → m.var_name = x.var_name →
        x.source_line ≤ m.source_line)
    (hA3 : ∀ name : Str, ((nodes.filter (firstUseFor name)).length ≤ 1))
    (hA4 : ∀ x ∈ nodes, x.source_line ≤ ln)
    (hlc : c.source_line = ln + 1)
    (hfu : c.is_first_use = !(cir_var_seen vars c.var_name))
    (hlen : vars.length < RIFT_CIR_MAX_VARS) :
    (∀ x ∈ cirCommit nodes c, x.kind = RiftCIRKind.assign →
      x.var_name ∈ (if c.is_first_use = true ∧ vars.length < RIFT_CIR_MAX_VARS
        then vars ++ [c.var_name] else vars)) ∧
    (∀ x ∈ cirCommit nodes c, x.kind = RiftCIRKind.assign → x.is_first_use = true →
      ∀ m ∈ cirCommit nodes c, m.kind = RiftCIRKind.assign → m.var_name = x.var_name →
        x.source_line ≤ m.source_line) ∧
    (∀ name : Str, (((cirCommit nodes c).filter (firstUseFor name)).length ≤ 1)) ∧
    (∀ x ∈ cirCommit nodes c, x.source_line ≤ ln + 1) := by
  by_cases hseen : cir_var_seen vars c.var_name = true
  · have hmemv : c.var_name ∈ vars := by
      unfold cir_var_seen at hseen
      simpa using hseen
    have hff : c.is_first_use = false := by rw [hfu, hseen]; rfl
    have hvars : (if c.is_first_use = true ∧ vars.length < RIFT_CIR_MAX_VARS
        then vars ++ [c.var_name] else vars) = vars := by
      rw [if_neg]
      intro hand
      rw [hff] at hand
      exact absurd hand.1 (by simp)
    rw [hvars]
    refine ⟨?_, ?_, ?_, ?_⟩
    · intro x hx hkx
      rcases mem_cirCommit hx with h1 | h1
      · exact hA1 x h1 hkx
      · rw [h1]; exact hmemv
    · intro x hx hkx hfx m hm hkm hvm
      rcases mem_cirCommit hx with h1 | h1
      · rcases mem_cirCommit hm with h2 | h2
        · exact hA2 x h1 hkx hfx m h2 hkm hvm
        · rw [h2, hlc]
          exact le_trans (hA4 x h1) (Nat.le_succ _)
      · rw [h1] at hfx
        rw [hff] at hfx
        exact absurd hfx (by simp)
    · intro name
      rw [filter_cirCommit_neg (firstUseFor_false_of_not_first hff)]
      exact hA3 name
    · intro x hx
      rcases mem_cirCommit hx with h1 | h1
      · exact le_trans (hA4 x h1) (Nat.le_succ _)
      · rw [h1, hlc]
  · have hnot : c.var_name ∉ vars := by
      unfold cir_var_seen at hseen
      simpa using hseen
    have hft : c.is_first_use = true := by
      rw [hfu]
      simp only [Bool.not_eq_true']
      simpa using hseen
    have hvars : (if c.is_first_use = true ∧ vars.length < RIFT_CIR_MAX_VARS
        then vars ++ [c.var_name] else vars) = vars ++ [c.var_name] := by
      rw [if_pos ⟨hft, hlen⟩]
    rw [hvars]
    refine ⟨?_, ?_, ?_, ?_⟩
    · intro x hx hkx
      rcases mem_cirCommit hx with h1 | h1
      · exact List.mem_append_left _ (hA1 x h1 hkx)
      · rw [h1]
        exact List.mem_append_right _ (List.mem_singleton.2 rfl)
    · intro x hx hkx hfx m hm hkm hvm
      rcases mem_cirCommit hx with h1 | h1
      · rcases mem_cirCommit hm with h2 | h2
        · exact hA2 x h1 hkx hfx m h2 hkm hvm
        · rw [h2, hlc]
          exact le_trans (hA4 x h1) (Nat.le_succ _)
      · rcases mem_cirCommit hm with h2 | h2
        · rw [h1] at hvm
          exact absurd (hvm ▸ hA1 m h2 hkm) hnot
        · rw [h1, h2]
    · intro name
      by_cases hp : firstUseFor name c = true
      · have hvn : c.var_name = name := by
          unfold firstUseFor at hp
          simp only [Bool.and_eq_true, beq_iff_eq] at hp
          exact hp.1.2
        have h0 : nodes.filter (firstUseFor name) = [] := by
          rw [List.filter_eq_nil_iff]
          intro x hx hpx
          have hx' : x.kind = RiftCIRKind.assign ∧ x.var_name = name := by
            unfold firstUseFor at hpx
            simp only [Bool.and_eq_true, beq_iff_eq] at hpx
            exact ⟨hpx.1.1, hpx.1.2⟩
          exact hnot (hvn ▸ hx'.2 ▸ hA1 x hx hx'.1)
        calc ((cirCommit nodes c).filter (firstUseFor name)).length
            ≤ (nodes.filter (firstUseFor name)).length + 1 := filter_cirCommit_le
          _ ≤ 1 := by rw [h0]; simp
      · rw [filter_cirCommit_neg (by simpa using hp)]
        exact hA3 name
    · intro x hx
      rcases mem_cirCommit hx with h1 | h1
      · exact le_trans (hA4 x h1) (Nat.le_succ _)
      · rw [h1, hlc]

theorem cir_safe_copy_idem (sz : Nat) (s : Str) :
    cir_safe_copy sz (cir_safe_copy sz s) = cir_safe_copy sz s := by
  unfold cir_safe_copy
  rw [List.take_take]
  simp

theorem stepLine_C5 {st st' : LinkSt} {raw : Str}
    (h : stepLine st raw = .ok st') (hInv : C5Inv st)
    (hlen : st.declared_vars.length < RIFT_CIR_MAX_VARS) : C5Inv st' := by
  obtain ⟨hA1, hA2, hA3, hA4, hA5⟩ := hInv
  have hA4w : ∀ n ∈ st.prog.nodes, n.source_line ≤ st.line_num + 1 :=
    fun n hn => le_trans (hA4 n hn) (Nat.le_succ _)
  have hA5ne : st.pending.kind ≠ RiftCIRKind.assign := by
    rcases hA5 with h5 | h5 <;> rw [h5] <;> decide
  unfold stepLine stepTrimmed at h
  unfold C5Inv
  by_cases ht : linkTrim raw = []
  · rw [if_pos ht] at h
    cases h
    exact ⟨hA1, hA2, hA3, hA4w, hA5⟩
  rw [if_neg ht] at h
  dsimp only at h
  by_cases hsp : st.in_span_block = true
  · rw [if_pos hsp] at h
    cases h
    unfold spanBlockStep
    have hkp : (if cir_starts_with (linkTrim raw) (cs "bytes:") = true
        then { st.pending with
               span_bytes := cAtoi (cir_trim_left ((linkTrim raw).drop 6)) }
        else st.pending).kind = st.pending.kind := by
      split <;> rfl
    by_cases hcl : (linkTrim raw).contains '}' = true
    · rw [if_pos hcl]
      dsimp only
      refine ⟨(C5parts_nonassign hA1 hA2 hA3 hA4 ?_ rfl).1,
              (C5parts_nonassign hA1 hA2 hA3 hA4 ?_ rfl).2.1,
              (C5parts_nonassign hA1 hA2 hA3 hA4 ?_ rfl).2.2.1,
              (C5parts_nonassign hA1 hA2 hA3 hA4 ?_ rfl).2.2.2, Or.inl rfl⟩ <;>
        (dsimp only; rw [hkp]; exact hA5ne)
    · rw [if_neg hcl]
      dsimp only
      refine ⟨hA1, hA2, hA3, hA4w, ?_⟩
      rw [hkp]
      exact hA5
  rw [if_neg hsp] at h
  by_cases hty : st.in_type_block = true
  · rw [if_pos hty] at h
    cases h
    unfold typeBlockStep
    by_cases hcl : (linkTrim raw).contains '}' = true
    · rw [if_pos hcl]
      dsimp only
      split
      · have parts := C5parts_markLast hA1 hA2 hA3 hA4
        exact ⟨parts.1, parts.2.1, parts.2.2.1,
          fun x hx => le_trans (parts.2.2.2 x hx) (Nat.le_succ _), Or.inl rfl⟩
      · exact ⟨hA1, hA2, hA3, hA4w, Or.inl rfl⟩
    · rw [if_neg hcl]
      cases hix : strIndexOf (linkTrim raw) ':' with
      | some ci =>
        dsimp only
        refine ⟨(C5parts_nonassign hA1 hA2 hA3 hA4 ?_ rfl).1,
                (C5parts_nonassign hA1 hA2 hA3 hA4 ?_ rfl).2.1,
                (C5parts_nonassign hA1 hA2 hA3 hA4 ?_ rfl).2.2.1,
                (C5parts_nonassign hA1 hA2 hA3 hA4 ?_ rfl).2.2.2, hA5⟩ <;>
          (dsimp only; decide)
      | none =>
        dsimp only
        exact ⟨hA1, hA2, hA3, hA4w, hA5⟩
  rw [if_neg hty] at h
  by_cases hpo : st.in_policy_block = true
  · rw [if_pos hpo] at h
    cases h
    unfold policyBlockStep
    split <;> exact ⟨hA1, hA2, hA3, hA4w, hA5⟩
  rw [if_neg hpo] at h
  unfold normalStep at h
  cases hcn : classifyNormal (linkTrim raw) <;> rw [hcn] at h <;>
    (try dsimp only at h ⊢)
  · cases h
    unfold normalComment
    refine ⟨(C5parts_nonassign hA1 hA2 hA3 hA4 ?_ rfl).1,
            (C5parts_nonassign hA1 hA2 hA3 hA4 ?_ rfl).2.1,
            (C5parts_nonassign hA1 hA2 hA3 hA4 ?_ rfl).2.2.1,
            (C5parts_nonassign hA1 hA2 hA3 hA4 ?_ rfl).2.2.2, hA5⟩ <;>
      (dsimp only; decide)
  · cases h
    unfold normalGovern
    refine ⟨(C5parts_nonassign hA1 hA2 hA3 hA4 ?_ rfl).1,
            (C5parts_nonassign hA1 hA2 hA3 hA4 ?_ rfl).2.1,
            (C5parts_nonassign hA1 hA2 hA3 hA4 ?_ rfl).2.2.1,
            (C5parts_nonassign hA1 hA2 hA3 hA4 ?_ rfl).2.2.2, hA5⟩ <;>
      (dsimp only; decide)
  · cases h
    unfold normalSpanOpen
    exact ⟨hA1, hA2, hA3, hA4w, Or.inr rfl⟩
  · unfold normalTypeOpen at h
    split at h
    · exact absurd h (by simp)
    · cases h
      refine ⟨(C5parts_nonassign hA1 hA2 hA3 hA4 ?_ rfl).1,
              (C5parts_nonassign hA1 hA2 hA3 hA4 ?_ rfl).2.1,
              (C5parts_nonassign hA1 hA2 hA3 hA4 ?_ rfl).2.2.1,
              (C5parts_nonassign hA1 hA2 hA3 hA4 ?_ rfl).2.2.2, hA5⟩ <;>
        (dsimp only; decide)
  · cases h
    unfold normalPolicyOpen
    refine ⟨(C5parts_nonassign hA1 hA2 hA3 hA4 ?_ rfl).1,
            (C5parts_nonassign hA1 hA2 hA3 hA4 ?_ rfl).2.1,
            (C5parts_nonassign hA1 hA2 hA3 hA4 ?_ rfl).2.2.1,
            (C5parts_nonassign hA1 hA2 hA3 hA4 ?_ rfl).2.2.2, hA5⟩ <;>
      (dsimp only; decide)
  · cases h
    unfold normalWhile
    refine ⟨(C5parts_nonassign hA1 hA2 hA3 hA4 ?_ rfl).1,
            (C5parts_nonassign hA1 hA2 hA3 hA4 ?_ rfl).2.1,
            (C5parts_nonassign hA1 hA2 hA3 hA4 ?_ rfl).2.2.1,
            (C5parts_nonassign hA1 hA2 hA3 hA4 ?_ rfl).2.2.2, hA5⟩ <;>
      (dsimp only; decide)
  · cases h
    unfold normalIf
    refine ⟨(C5parts_nonassign hA1 hA2 hA3 hA4 ?_ rfl).1,
            (C5parts_nonassign hA1 hA2 hA3 hA4 ?_ rfl).2.1,
            (C5parts_nonassign hA1 hA2 hA3 hA4 ?_ rfl).2.2.1,
            (C5parts_nonassign hA1 hA2 hA3 hA4 ?_ rfl).2.2.2, hA5⟩ <;>
      (dsimp only; decide)
  · cases h
    unfold normalClose
    split
    · refine ⟨(C5parts_nonassign hA1 hA2 hA3 hA4 ?_ rfl).1,
              (C5parts_nonassign hA1 hA2 hA3 hA4 ?_ rfl).2.1,
              (C5parts_nonassign hA1 hA2 hA3 hA4 ?_ rfl).2.2.1,
              (C5parts_nonassign hA1 hA2 hA3 hA4 ?_ rfl).2.2.2, hA5⟩ <;>
        (dsimp only; decide)
    · exact ⟨hA1, hA2, hA3, hA4w, hA5⟩
  · cases h
    unfold normalValidate
    refine ⟨(C5parts_nonassign hA1 hA2 hA3 hA4 ?_ rfl).1,
            (C5parts_nonassign hA1 hA2 hA3 hA4 ?_ rfl).2.1,
            (C5parts_nonassign hA1 hA2 hA3 hA4 ?_ rfl).2.2.1,
            (C5parts_nonassign hA1 hA2 hA3 hA4 ?_ rfl).2.2.2, hA5⟩ <;>
      (dsimp only; decide)
  · unfold normalAssign at h
    split at h
    · exact absurd h (by simp)
    · cases h
      dsimp only
      rw [cir_safe_copy_idem]
      refine ⟨(C5parts_assign hA1 hA2 hA3 hA4 rfl ?_ hlen).1,
              (C5parts_assign hA1 hA2 hA3 hA4 rfl ?_ hlen).2.1,
              (C5parts_assign hA1 hA2 hA3 hA4 rfl ?_ hlen).2.2.1,
              (C5parts_assign hA1 hA2 hA3 hA4 rfl ?_ hlen).2.2.2, hA5⟩ <;> rfl
  · cases h
    exact ⟨hA1, hA2, hA3, hA4w, hA5⟩
  · cases h
    unfold normalUnknown
    refine ⟨(C5parts_nonassign hA1 hA2 hA3 hA4 ?_ rfl).1,
            (C5parts_nonassign hA1 hA2 hA3 hA4 ?_ rfl).2.1,
            (C5parts_nonassign hA1 hA2 hA3 hA4 ?_ rfl).2.2.1,
            (C5parts_nonassign hA1 hA2 hA3 hA4 ?_ rfl).2.2.2, hA5⟩ <;>
      (dsimp only; decide)

theorem runVars_mono (ls : List Str) : ∀ (st : LinkSt),
    st.declared_vars.length ≤ (runVars st ls).length := by
  induction ls with
  | nil => intro st; exact le_refl _
  | cons l ls ih =>
    intro st
    unfold runVars
    cases hs : stepLine st l with
    | error p => exact le_refl _
    | ok st1 =>
      refine le_trans ?_ (ih st1)
      rcases (stepLine_ok_inv hs).2.2.2.2.2.2 with hv | ⟨v, hv⟩ <;> rw [hv] <;> simp

theorem runLines_C5 (ls : List Str) : ∀ (st : LinkSt), C5Inv st →
    (runVars st ls).length < RIFT_CIR_MAX_VARS →
    ∀ name : Str, C5Prop (runLines st ls) name := by
  induction ls with
  | nil =>
    intro st hInv _ name
    obtain ⟨_, hA2, hA3, _, _⟩ := hInv
    refine ⟨hA3 name, ?_⟩
    intro n hn hkn hvn hfn m hm hkm hvm
    exact hA2 n hn hkn hfn m hm hkm (hvm.trans hvn.symm)
  | cons l ls ih =>
    intro st hInv hvars name
    obtain ⟨hA1, hA2, hA3, hA4, hA5⟩ := hInv
    cases hs : stepLine st l with
    | error p =>
      rw [runLines_cons_error ls hs]
      have hp := stepLine_error_inv hs
      refine ⟨hp.1 ▸ hA3 name, ?_⟩
      rw [hp.1]
      intro n hn hkn hvn hfn m hm hkm hvm
      exact hA2 n hn hkn hfn m hm hkm (hvm.trans hvn.symm)
    | ok st1 =>
      rw [runLines_cons_ok ls hs]
      have hv1 : (runVars st (l :: ls)).length = (runVars st1 ls).length := by
        have : runVars st (l :: ls) = runVars st1 ls := by
          show (match stepLine st l with
            | .error _ => st.declared_vars
            | .ok st1 => runVars st1 ls) = runVars st1 ls
          rw [hs]
        rw [this]
      have hlen : st.declared_vars.length < RIFT_CIR_MAX_VARS := by
        have h1 : st.declared_vars.length ≤ st1.declared_vars.length := by
          rcases (stepLine_ok_inv hs).2.2.2.2.2.2 with hv | ⟨v, hv⟩ <;>
            rw [hv] <;> simp
        have h2 := runVars_mono ls st1
        rw [hv1] at hvars
        omega
      exact ih st1 (stepLine_C5 hs ⟨hA1, hA2, hA3, hA4, hA5⟩ hlen)
        (by rw [← hv1]; exact hvars) name

/-- Claim C5 as amended: for every source whose linker run records fewer
than `RIFT_CIR_MAX_VARS` (64) variable names — i.e. the fixed
first-use-tracking table never fills — and for every variable name, the
returned program contains at most one committed Assign node with that
name whose `is_first_use` flag is true, and any such node has the lowest
source line among the committed Assign nodes for that name. -/
theorem claim_C5_amended :
    ∀ (lines : List Str) (mode : RiftExecutionMode) (name : Str),
      (rift_link_vars lines mode).length < RIFT_CIR_MAX_VARS →
      C5Prop (rift_link_lines lines mode) name := by
  intro lines mode name hvars
  have hInv : C5Inv (initSt mode) := by
    refine ⟨?_, ?_, ?_, ?_, Or.inl rfl⟩
    · intro n hn; exact absurd hn (by simp [initSt])
    · intro n hn; exact absurd hn (by simp [initSt])
    · intro nm; simp [initSt]
    · intro n hn; exact absurd hn (by simp [initSt])
  exact runLines_C5 lines (initSt mode) hInv hvars name

/-- Claim C5 counterexample: after 64 distinct variable names fill the
tracking table, the 65th name `zz` is assigned twice and both committed
Assign nodes carry `is_first_use = true` — the name is never recorded, so
the second assignment is also seen as a first use. -/
theorem claim_C5_counterexample :
    (rift_link_lines src5 .classical).consensus_ok = true ∧
    ((rift_link_lines src5 .classical).nodes.filter
      (firstUseFor (cs "zz"))).length = 2 ∧ ¬ (2 ≤ 1) :=
  ⟨by decide, by decide, by decide⟩

/-- Witness for C5: a span block and two assignments to `x`; one recorded
name, so the amended claim applies. -/
theorem claim_C5_witness :
    (rift_link_vars src5w .classical).length < RIFT_CIR_MAX_VARS ∧
    C5Prop (rift_link_lines src5w .classical) (cs "x") :=
  ⟨by decide, claim_C5_amended src5w .classical (cs "x") (by decide)⟩
